import Mathlib

/-!
Verification development for the weston color-management transform engine
(src/libweston/color-lcms/ and src/libweston/color-profile-param-builder.c).

The C sources are shallowly embedded: C `float`/`double` arithmetic is
modelled over `ℚ` (with an explicit IEEE-style value domain `FVal` where
NaN/infinity behaviour matters), fallible functions return `Option`/`Except`,
and the linked-list pipelines of LittleCMS become `List` values.  Calls into
LittleCMS itself (an external library) and into repository helpers that are
not part of the embedded sources are taken as explicit function parameters,
so the theorems hold for every possible behaviour of those collaborators.
-/

namespace Weston

/-! ## IEEE-style float values for clamping behaviour

`ensure_unorm` in color-transform.c is sensitive to NaN and infinities
through C `<=` / `>` comparisons, so we model the value domain explicitly:
a float is NaN, +inf, -inf, or a finite value (modelled as a rational).
-/

/-- A C `float` value as relevant to `ensure_unorm`: NaN, infinities or a
finite number. -/
inductive FVal where
  | nan : FVal
  | posInf : FVal
  | negInf : FVal
  | finite : ℚ → FVal
deriving DecidableEq

/-- C comparison `v <= 0.0f` on an `FVal` (false for NaN). -/
def FVal.le_zero : FVal → Bool
  | .nan => false
  | .posInf => false
  | .negInf => true
  | .finite q => decide (q ≤ 0)

/-- C comparison `v > 1.0f` on an `FVal` (false for NaN). -/
def FVal.gt_one : FVal → Bool
  | .nan => false
  | .posInf => true
  | .negInf => false
  | .finite q => decide (1 < q)

/-- `ensure_unorm` from color-transform.c: clamp to [0.0, 1.0] except that
NaN falls through both comparisons and is returned unchanged. -/
def ensure_unorm (v : FVal) : FVal :=
  if v.le_zero then .finite 0
  else if v.gt_one then .finite 1
  else v

/-- Projection of one output channel of an RGB triple (0 = red, 1 = green,
2 = blue), mirroring `rgb_out[0..2]` in `cmlcms_fill_in_3dlut`. -/
def rgbChannel : ℕ → FVal × FVal × FVal → FVal
  | 0, t => t.1
  | 1, t => t.2.1
  | _, t => t.2.2

/-- Sequentially append the blocks `f 0, f 1, ..., f (n-1)`; this is the
order in which a C `for (i = 0; i < n; i++)` loop emits values. -/
def loopConcat {α : Type} (n : ℕ) (f : ℕ → List α) : List α :=
  match n with
  | 0 => []
  | m + 1 => loopConcat m f ++ f m

/-- `cmlcms_fill_in_3dlut` from color-transform.c: evaluate the pipeline
(`cmsDoTransform` on `cmap_3dlut`, taken here as the parameter `eval`,
since LittleCMS is an external library) at every point of the regular
`len`-cubed grid over [0,1]^3, blue loop outermost and red loop innermost,
writing the three `ensure_unorm`-clamped channels consecutively.  The grid
coordinate is `value / divider` with `divider = len - 1`. -/
def cmlcms_fill_in_3dlut (eval : ℚ → ℚ → ℚ → FVal × FVal × FVal)
    (len : ℕ) : List FVal :=
  let divider : ℚ := (len : ℚ) - 1
  loopConcat len (fun value_b =>
    loopConcat len (fun value_g =>
      loopConcat len (fun value_r =>
        let out := eval ((value_r : ℚ) / divider)
                        ((value_g : ℚ) / divider)
                        ((value_b : ℚ) / divider)
        [ensure_unorm out.1, ensure_unorm out.2.1, ensure_unorm out.2.2])))

/-! ## Parametric curve translation (color-transform.c)

`struct weston_color_curve_parametric` stores up to 10 float parameters per
color channel; the LINPOW and POWLIN families use `params[ch][0..4]` as
`g, a, b, c, d`.  The LittleCMS-supplied source parameters
(`float type_params[3][10]`) are modelled as `Fin 3 → Fin 10 → ℚ`.
-/

/-- The five meaningful parameters of one channel of a LINPOW/POWLIN curve:
`g, a, b, c, d` = `params[channel][0..4]`. -/
structure ChannelParams where
  g : ℚ
  a : ℚ
  b : ℚ
  c : ℚ
  d : ℚ
deriving DecidableEq

/-- `enum weston_color_curve_type` from color.h. -/
inductive ColorCurveType where
  | identity | lut3x1d | linpow | powlin
deriving DecidableEq

/-- A parametric weston color curve: curve family, the clamped-input flag
and the per-channel parameters. -/
structure ParametricCurve where
  ctype : ColorCurveType
  clamped_input : Bool
  params : Fin 3 → ChannelParams

instance : DecidableEq ParametricCurve := fun x y =>
  decidable_of_iff
    (x.ctype = y.ctype ∧ x.clamped_input = y.clamped_input ∧
      x.params = y.params)
    (by cases x; cases y; simp)

/-- `linpow_from_type_1` from color-transform.c: a LittleCMS type 1 pure
power-law becomes LINPOW with the same `g` and `a = 1, b = 0, c = 1, d = 0`
in every channel; this translation never fails (`some` mirrors the C
function returning true). -/
def linpow_from_type_1 (tp : Fin 3 → Fin 10 → ℚ) (clamped_input : Bool) :
    Option ParametricCurve :=
  some { ctype := .linpow, clamped_input := clamped_input,
         params := fun i => ⟨tp i 0, 1, 0, 1, 0⟩ }

/-- `linpow_from_type_1_inverse` from color-transform.c: LittleCMS type -1
becomes LINPOW with `g` inverted; fails (`none`) when some channel has
`g = 0`. -/
def linpow_from_type_1_inverse (tp : Fin 3 → Fin 10 → ℚ)
    (clamped_input : Bool) : Option ParametricCurve :=
  if ∀ i : Fin 3, tp i 0 ≠ 0 then
    some { ctype := .linpow, clamped_input := clamped_input,
           params := fun i => ⟨1 / tp i 0, 1, 0, 1, 0⟩ }
  else
    none

/-- `linpow_from_type_4` from color-transform.c: LittleCMS type 4 params are
copied as-is into LINPOW; fails when some channel has `a < 0`, `d < 0` or
`a * d + b < 0`. -/
def linpow_from_type_4 (tp : Fin 3 → Fin 10 → ℚ) (clamped_input : Bool) :
    Option ParametricCurve :=
  if ∀ i : Fin 3, ¬(tp i 1 < 0) ∧ ¬(tp i 4 < 0) ∧
      ¬(tp i 1 * tp i 4 + tp i 2 < 0) then
    some { ctype := .linpow, clamped_input := clamped_input,
           params := fun i => ⟨tp i 0, tp i 1, tp i 2, tp i 3, tp i 4⟩ }
  else
    none

/-- `powlin_from_type_4_inverse` from color-transform.c: LittleCMS type -4
(the inverse of a type 4 curve with parameters `g a b c d`) becomes POWLIN
with `g ← 1/g`, `a ← 1/a`, `b ← -b/a`, `c ← 1/c`, `d ← c*d`; fails when
some channel has `g = 0`, `a = 0` or `c = 0`. -/
def powlin_from_type_4_inverse (tp : Fin 3 → Fin 10 → ℚ)
    (clamped_input : Bool) : Option ParametricCurve :=
  if ∀ i : Fin 3, tp i 0 ≠ 0 ∧ tp i 1 ≠ 0 ∧ tp i 3 ≠ 0 then
    some { ctype := .powlin, clamped_input := clamped_input,
           params := fun i =>
             ⟨1 / tp i 0, 1 / tp i 1, -(tp i 2) / tp i 1, 1 / tp i 3,
              tp i 3 * tp i 4⟩ }
  else
    none

/-- One branch-piece of LINPOW on a non-negative input `t`
(color.h: `y = (a*t + b)^g` for `t ≥ d`, `y = c*t` for `0 ≤ t < d`). -/
noncomputable def linpow_eval_nonneg (p : ChannelParams) (t : ℝ) : ℝ :=
  if (p.d : ℝ) ≤ t then Real.rpow ((p.a : ℝ) * t + (p.b : ℝ)) (p.g : ℝ)
  else (p.c : ℝ) * t

/-- LINPOW evaluation per color.h: optionally clamp the input to [0, 1]
(`clamped_input`), and mirror negative inputs as `-f(-x)`. -/
noncomputable def linpow_eval (p : ChannelParams) (clamped_input : Bool)
    (x : ℝ) : ℝ :=
  let y := if clamped_input then max 0 (min 1 x) else x
  if 0 ≤ y then linpow_eval_nonneg p y else -(linpow_eval_nonneg p (-y))

/-! ## Pipeline optimizer (color-transform.c)

A LittleCMS `cmsPipeline` is a linked list of stages; we model it as a
`List` of stages.  Matrix stages carry their mathematical 3x3 matrix (the C
code stores it row-major) and an optional offset vector.  The contents of a
curve-set stage, and the operations `are_curvesets_inverse`,
`join_curvesets`/`join_powerlaw_curvesets` and `cmsIsToneCurveLinear`
applied to them, live in color-curve-segments.c and LittleCMS, which are
not part of the embedded sources; they are taken as parameters
(`CurveOps`), so every theorem below holds for all their implementations.
-/

/-- `cmlcms_reasonable_1D_points` from color-transform.c. -/
def cmlcms_reasonable_1D_points : ℕ := 1024

/-- `cmlcms_reasonable_3D_points` from color-transform.c. -/
def cmlcms_reasonable_3D_points : ℕ := 33

/-- `MATRIX_PRECISION_BITS` from color-transform.c. -/
def MATRIX_PRECISION_BITS : ℕ := 12

/-- A 3x3 matrix over the rationals (modelling the `double` entries of a
`_cmsStageMatrixData`). -/
abbrev Mat3 : Type := Matrix (Fin 3) (Fin 3) ℚ

/-- A 3-vector of rationals (a matrix stage offset column). -/
abbrev Vec3 : Type := Fin 3 → ℚ

/-- Modelled from the spec: the contents of a curve-set stage and the curve
operations of color-curve-segments.c / LittleCMS are not under the embedded
sources, so they are abstracted: `areInverse` is `are_curvesets_inverse`,
`join` is `join_curvesets` (closed-form power-law merge with resampling
fallback at `cmlcms_reasonable_1D_points` samples), `isLinear` is
`cmsIsToneCurveLinear` on all three curves, `nCurves` is the stage's curve
count, and `getParametricParams` is `get_parametric_curveset_params`
(returning the LittleCMS parametric type tag, the per-channel parameters
and the clamped-input flag, or nothing for non-parametric curves). -/
structure CurveOps (C : Type) where
  areInverse : C → C → Bool
  join : C → C → C
  isLinear : C → Bool
  nCurves : C → ℕ
  getParametricParams : C → Option (ℤ × (Fin 3 → Fin 10 → ℚ) × Bool)

/-- A LittleCMS pipeline stage as the optimizer distinguishes them: a
matrix stage with optional offset (`cmsSigMatrixElemType`), a curve-set
stage (`cmsSigCurveSetElemType`), or any other stage type. -/
inductive Stage (C : Type) where
  | matrix (m : Mat3) (offset : Option Vec3)
  | curveSet (c : C)
  | other
deriving DecidableEq

/-- `matrix_inf_norm` from color-transform.c: the maximum absolute row sum
of the matrix that the `cmsMAT3` argument represents. -/
def matrix_inf_norm (m : Mat3) : ℚ :=
  max (∑ c : Fin 3, |m 0 c|)
    (max (∑ c : Fin 3, |m 1 c|) (∑ c : Fin 3, |m 2 c|))

/-- `matrix_is_identity` from color-transform.c: subtract the identity and
test `-log2(err) >= bits_precision`, which for rationals is
`err ≤ 2^-bits` (with `err = 0` satisfying it, as `-log2(0) = +inf`). -/
def matrix_is_identity (m : Mat3) (bits : ℕ) : Bool :=
  decide (matrix_inf_norm (m - 1) ≤ 1 / 2 ^ bits)

/-- `is_matrix_stage_with_zero_offset` from color-transform.c: a matrix
stage whose offset is absent or all-zero. -/
def is_matrix_stage_with_zero_offset {C : Type} : Stage C → Bool
  | .matrix _ none => true
  | .matrix _ (some o) => decide (∀ r : Fin 3, o r = 0)
  | _ => false

/-- `is_identity_matrix_stage` from color-transform.c: a zero-offset matrix
stage whose matrix passes the identity test at `MATRIX_PRECISION_BITS`
(the C code hands `stage_matrix_transpose` — the transpose of the stored
matrix — to `matrix_is_identity`). -/
def is_identity_matrix_stage {C : Type} (s : Stage C) : Bool :=
  if is_matrix_stage_with_zero_offset s then
    match s with
    | .matrix m _ => matrix_is_identity m.transpose MATRIX_PRECISION_BITS
    | _ => false
  else
    false

/-- `multiply_matrix_stages` from color-transform.c: replace two matrix
stages by the single matrix `next * prev` (the C code multiplies the
transposed representations and transposes back); the result has no offset.
Callers guarantee both arguments are matrix stages. -/
def multiply_matrix_stages {C : Type} : Stage C → Stage C → Stage C
  | .matrix mn _, .matrix mp _ => .matrix (mn * mp) none
  | _, _ => .other

/-- `is_identity_curve_stage` from color-transform.c: a curve-set stage all
of whose tone curves are linear. -/
def is_identity_curve_stage {C : Type} (ops : CurveOps C) : Stage C → Bool
  | .curveSet c => ops.isLinear c
  | _ => false

/-- The do-while walk of `merge_matrices`: `prev` is the pending stage,
the list is the remaining stages starting at `elem`; returns the rebuilt
pipeline and the `modified` flag.  Two consecutive zero-offset matrix
stages are replaced by their product (which stays pending, so longer runs
keep merging); a pending identity matrix stage is dropped; any other
pending stage is emitted unchanged. -/
def merge_matrices_go {C : Type} : Option (Stage C) → List (Stage C) →
    List (Stage C) × Bool
  | none, [] => ([], false)
  | some p, [] =>
      if is_identity_matrix_stage p then ([], true) else ([p], false)
  | none, e :: rest => merge_matrices_go (some e) rest
  | some p, e :: rest =>
      if is_matrix_stage_with_zero_offset p &&
          is_matrix_stage_with_zero_offset e then
        ((merge_matrices_go (some (multiply_matrix_stages e p)) rest).1, true)
      else if is_identity_matrix_stage p then
        ((merge_matrices_go (some e) rest).1, true)
      else
        let r := merge_matrices_go (some e) rest
        (p :: r.1, r.2)

/-- `merge_matrices` from color-transform.c (the walk starts with no
pending stage). -/
def merge_matrices {C : Type} (l : List (Stage C)) : List (Stage C) × Bool :=
  merge_matrices_go none l

/-- The do-while walk of `merge_curvesets`: two consecutive curve-set
stages that are inverses of each other are both dropped (the walk resumes
after them); otherwise they are joined into a single pending curve-set; a
pending identity curve-set is dropped; any other pending stage is emitted
unchanged. -/
def merge_curvesets_go {C : Type} (ops : CurveOps C) :
    Option (Stage C) → List (Stage C) → List (Stage C) × Bool
  | none, [] => ([], false)
  | some p, [] =>
      if is_identity_curve_stage ops p then ([], true) else ([p], false)
  | none, e :: rest => merge_curvesets_go ops (some e) rest
  | some p, e :: rest =>
      match p, e with
      | .curveSet cp, .curveSet ce =>
          if ops.areInverse cp ce then
            match rest with
            | [] => ([], true)
            | e2 :: rest2 => ((merge_curvesets_go ops (some e2) rest2).1, true)
          else
            ((merge_curvesets_go ops
                (some (.curveSet (ops.join cp ce))) rest).1, true)
      | _, _ =>
          if is_identity_curve_stage ops p then
            ((merge_curvesets_go ops (some e) rest).1, true)
          else
            let r := merge_curvesets_go ops (some e) rest
            (p :: r.1, r.2)

/-- `merge_curvesets` from color-transform.c. -/
def merge_curvesets {C : Type} (ops : CurveOps C) (l : List (Stage C)) :
    List (Stage C) × Bool :=
  merge_curvesets_go ops none l

/-- The pending stage viewed as the list of stages it still contributes. -/
def pendingList {C : Type} : Option (Stage C) → List (Stage C)
  | none => []
  | some p => [p]

/-- `lcms_optimize_pipeline`'s do-while loop, with explicit fuel (each
modifying iteration strictly shrinks the pipeline, so `length + 1` fuel
always suffices). -/
def lcms_optimize_pipeline_go {C : Type} (ops : CurveOps C) :
    ℕ → List (Stage C) → List (Stage C)
  | 0, l => l
  | fuel + 1, l =>
      let r1 := merge_matrices l
      let r2 := merge_curvesets ops r1.1
      if r1.2 || r2.2 then lcms_optimize_pipeline_go ops fuel r2.1 else r2.1

/-- `lcms_optimize_pipeline` from color-transform.c: alternate
`merge_matrices` and `merge_curvesets` until neither reports a change. -/
def lcms_optimize_pipeline {C : Type} (ops : CurveOps C)
    (l : List (Stage C)) : List (Stage C) :=
  lcms_optimize_pipeline_go ops (l.length + 1) l

/-! ## ICC profile validation (color-profile.c) -/

/-- The LittleCMS profile/device class signatures that
`icc_profile_class_name` distinguishes. -/
inductive IccDeviceClass where
  | input | display | output | link | abstractClass | colorSpace | namedColor
  | unknown
deriving DecidableEq

/-- The header data of an opened ICC profile that `validate_icc_profile`
inspects: the encoded ICC version word (`cmsGetEncodedICCversion`), the
channel count of the color space (`cmsChannelsOf(cmsGetColorSpace(...))`)
and the device class (`cmsGetDeviceClass`). -/
structure IccHeader where
  encodedVersion : ℕ
  nrChannels : ℕ
  deviceClass : IccDeviceClass
deriving DecidableEq

/-- The distinguishing validation errors of `validate_icc_profile`, one per
`str_printf` message. -/
inductive IccValidationError where
  | unsupportedMajorVersion : ℕ → IccValidationError
  | wrongChannelCount : ℕ → IccValidationError
  | wrongDeviceClass : IccDeviceClass → IccValidationError
deriving DecidableEq

/-- The major-version byte: `cmsGetEncodedICCversion(profile.p) >> 24`
truncated to `uint8_t`. -/
def iccMajorVersion (h : IccHeader) : ℕ :=
  h.encodedVersion / 2 ^ 24 % 2 ^ 8

/-- `validate_icc_profile` from color-profile.c: accept only a supported
major version (2 or 4), exactly 3 channels, and Display device class,
checked in that order; each rejection carries its own distinguishing
error. -/
def validate_icc_profile (h : IccHeader) : Except IccValidationError Unit :=
  let version := iccMajorVersion h
  if version ≠ 2 ∧ version ≠ 4 then
    .error (.unsupportedMajorVersion version)
  else if h.nrChannels ≠ 3 then
    .error (.wrongChannelCount h.nrChannels)
  else if h.deviceClass ≠ .display then
    .error (.wrongDeviceClass h.deviceClass)
  else
    .ok ()

/-! ## Pipeline translation and chain realization (color-transform.c) -/

/-- A curve slot of the fixed three-stage weston transform: identity, the
sampled 3x1D-LUT fallback (with its lazy fill-in callback and
`optimal_len = cmlcms_reasonable_1D_points`), or a translated parametric
curve. -/
inductive WestonCurve where
  | identity
  | lut3x1d
  | parametric (p : ParametricCurve)
deriving DecidableEq

/-- `enum weston_color_mapping_type` from color.h; the matrix variant
carries the column-major 3x3 matrix written by `translate_matrix_element`. -/
inductive WestonMapping where
  | identity
  | lut3d
  | matrix (m : Mat3)
deriving DecidableEq

/-- `translate_curve_element_parametric` from color-transform.c: obtain the
LittleCMS parametric type tag and parameters (if the curve-set is
parametric at all) and dispatch on the supported types 1, -1, 4, -4. -/
def translate_curve_element_parametric {C : Type} (ops : CurveOps C)
    (c : C) : Option ParametricCurve :=
  match ops.getParametricParams c with
  | none => none
  | some (t, params, ci) =>
      if t = 1 then linpow_from_type_1 params ci
      else if t = -1 then linpow_from_type_1_inverse params ci
      else if t = 4 then linpow_from_type_4 params ci
      else if t = -4 then powlin_from_type_4_inverse params ci
      else none

/-- `translate_curve_element` from color-transform.c: fails if the
curve-set does not have exactly 3 curves; otherwise try the parametric
translation and fall back to the sampled 3x1D LUT (which always
succeeds). -/
def translate_curve_element {C : Type} (ops : CurveOps C) (c : C) :
    Option WestonCurve :=
  if ops.nCurves c ≠ 3 then none
  else
    match translate_curve_element_parametric ops c with
    | some p => some (.parametric p)
    | none => some .lut3x1d

/-- `translate_matrix_element` from color-transform.c: a matrix stage with
zero offset becomes a MATRIX mapping (a `Mat3` is 3x3 by construction,
matching the channel-count checks). -/
def translate_matrix_element {C : Type} : Stage C → Option WestonMapping
  | .matrix m off =>
      if is_matrix_stage_with_zero_offset (Stage.matrix m off : Stage C) then
        some (.matrix m)
      else
        none
  | _ => none

/-- The three stages written into a `weston_color_transform` by
`translate_pipeline`. -/
structure XformStages where
  pre_curve : WestonCurve
  mapping : WestonMapping
  post_curve : WestonCurve
deriving DecidableEq

/-- The tail of `translate_pipeline` after pre-curve and mapping: an
optional post curve-set, after which the pipeline must end. -/
def translate_pipeline_post {C : Type} (ops : CurveOps C)
    (pre : WestonCurve) (map : WestonMapping) :
    List (Stage C) → Option XformStages
  | [] => some ⟨pre, map, .identity⟩
  | .curveSet c :: rest =>
      match translate_curve_element ops c with
      | none => none
      | some post => if rest.isEmpty then some ⟨pre, map, post⟩ else none
  | _ => none

/-- The middle of `translate_pipeline` after the pre-curve: an optional
matrix stage, then the post-curve tail. -/
def translate_pipeline_map {C : Type} (ops : CurveOps C)
    (pre : WestonCurve) : List (Stage C) → Option XformStages
  | [] => some ⟨pre, .identity, .identity⟩
  | .matrix m off :: rest =>
      match translate_matrix_element (Stage.matrix m off : Stage C) with
      | none => none
      | some map => translate_pipeline_post ops pre map rest
  | l => translate_pipeline_post ops pre .identity l

/-- `translate_pipeline` from color-transform.c: all three stages start as
identity; then an optional leading curve-set becomes the pre-curve, an
optional matrix becomes the mapping, an optional curve-set becomes the
post-curve, and any stage left after that fails the translation. -/
def translate_pipeline {C : Type} (ops : CurveOps C) :
    List (Stage C) → Option XformStages
  | [] => some ⟨.identity, .identity, .identity⟩
  | .curveSet c :: rest =>
      match translate_curve_element ops c with
      | none => none
      | some pre => translate_pipeline_map ops pre rest
  | l => translate_pipeline_map ops .identity l

/-- The `status` field of `struct cmlcms_color_transform`. -/
inductive XformStatus where
  | failed | optimized | threeDLut
deriving DecidableEq

/-- The outcome of `optimize_float_pipeline`: the transform status, the
three stages written into the transform, and the `cmsBool` handed back to
LittleCMS (true means weston handles the transform itself). -/
structure OptResult where
  status : XformStatus
  stages : XformStages
  handled : Bool
deriving DecidableEq

/-- `optimize_float_pipeline` from color-transform.c: run the optimizer,
then try the pipeline translation; on success the transform is OPTIMIZED
(return TRUE), otherwise install the dense 3D-LUT fallback (mapping of
type 3D_LUT with `optimal_len = cmlcms_reasonable_3D_points`, identity
curves) and return FALSE so LittleCMS keeps its own float machinery. -/
def optimize_float_pipeline {C : Type} (ops : CurveOps C)
    (l : List (Stage C)) : OptResult :=
  let lopt := lcms_optimize_pipeline ops l
  match translate_pipeline ops lopt with
  | some st => ⟨.optimized, st, true⟩
  | none => ⟨.threeDLut, ⟨.identity, .lut3d, .identity⟩, false⟩

/-- `enum cmlcms_profile_type` from color-lcms.h. -/
inductive CmProfileType where
  | icc | params
deriving DecidableEq

/-- A `struct cmlcms_color_profile` as far as `xform_realize_chain`
inspects it: its type tag and whether the lazily computed output extract
has a VCGT calibration profile (the eotf / inv_eotf LittleCMS profile
handles themselves are opaque). -/
structure CmProfile where
  ptype : CmProfileType
  hasVcgt : Bool
deriving DecidableEq

/-- `enum cmlcms_category` from color-lcms.h. -/
inductive CmCategory where
  | inputToBlend | blendToOutput | inputToOutput
deriving DecidableEq

/-- `enum weston_render_intent` from color-properties.h. -/
inductive RenderIntent where
  | perceptual | relative | saturation | absolute | relativeBpc
deriving DecidableEq

/-- `struct cmlcms_color_transform_search_param` from color-lcms.h. -/
structure SearchKey where
  category : CmCategory
  input_profile : Option CmProfile
  output_profile : CmProfile
  render_intent : Option RenderIntent
deriving DecidableEq

/-- The observable outcome of `xform_realize_chain`: a fatal assertion
failure (`weston_assert_*`), a recoverable failure (`return false`), or
success together with the transform's status and stages. -/
inductive RealizeResult where
  | fatal
  | failed
  | ok (status : XformStatus) (stages : XformStages)
deriving DecidableEq

/-- `xform_realize_chain` from color-transform.c.

Modelled from the spec in two places: the `weston_assert_*` helpers
(shared/weston-assert.h is not among the embedded sources) are fatal on
violation per spec §7 ("asserted and treated as fatal/unreachable"), here
the `fatal` outcome; and `cmsCreateMultiprofileTransformTHR` is LittleCMS
code which builds a pipeline from the profile chain and hands it to the
`transform_factory` plugin (which calls `optimize_float_pipeline`), so the
pipeline the plugin receives (`factoryPipeline`, `none` when the plugin is
never invoked and the transform status stays FAILED) and the overall
creation success (`created`) are parameters.

The control flow mirrors the C: parametric profiles bail out with a
recoverable failure; BLEND_TO_OUTPUT asserts that the search key has no
render intent (it is replaced by the internal ABSOLUTE intent) while the
other categories assert an intent is present; a null transform is a
recoverable failure; then the switch on the status treats FAILED as
recoverable, accepts OPTIMIZED, and for 3DLUT asserts the category is not
BLEND_TO_OUTPUT. -/
def xform_realize_chain {C : Type} (ops : CurveOps C) (key : SearchKey)
    (factoryPipeline : Option (List (Stage C))) (created : Bool) :
    RealizeResult :=
  if (key.output_profile.ptype == CmProfileType.params ||
      (match key.input_profile with
       | some p => p.ptype == CmProfileType.params
       | none => false)) then
    .failed
  else
    let intentOk : Bool :=
      match key.category, key.render_intent with
      | .blendToOutput, some _ => false
      | .blendToOutput, none => true
      | _, some _ => true
      | _, none => false
    if intentOk = false then
      .fatal
    else
      let built : XformStatus × XformStages :=
        match factoryPipeline with
        | none => (.failed, ⟨.identity, .identity, .identity⟩)
        | some l =>
            let r := optimize_float_pipeline ops l
            (r.status, r.stages)
      if created = false then
        .failed
      else
        match built.1 with
        | .failed => .failed
        | .optimized => .ok .optimized built.2
        | .threeDLut =>
            if key.category = .blendToOutput then .fatal
            else .ok .threeDLut built.2

/-- Trivial curve operations over a unit curve type; used to instantiate
the parameterized pipeline model on concrete inputs. -/
def trivialCurveOps : CurveOps Unit :=
  ⟨fun _ _ => false, fun _ _ => (), fun _ => false, fun _ => 3,
   fun _ => none⟩

/-- A concrete BLEND_TO_OUTPUT search key over a stock ICC output profile
(no input profile, no render intent). -/
def sampleB2OKey : SearchKey :=
  ⟨.blendToOutput, none, ⟨.icc, false⟩, none⟩

/-! ## Transform cache (color-transform.c) and profile store
(color-profile.c)

Profiles handed to the transform cache are already deduplicated by the
profile store, so `transform_matches_params` compares them by pointer
identity; object identity (a C pointer) is modelled as a numeric object
id.  The reference-count helpers `weston_color_profile_ref/unref` and
`weston_color_transform_ref` live in libweston/color.c, which is not
among the embedded sources; they are modelled from the spec (§3):
increment the count and return the same object, decrement and destroy
exactly at zero. -/

/-- The cache-level view of `struct cmlcms_color_transform_search_param`:
the category, the input and output profile object identities, and the
render intent (the `weston_render_intent_info` pointers are per-intent
singletons, so identity of the pointer equals equality of the intent). -/
structure CacheKey where
  category : CmCategory
  input_profile : Option ℕ
  output_profile : ℕ
  render_intent : Option RenderIntent
deriving DecidableEq

/-- `transform_matches_params` from color-transform.c: the stored search
key must agree with the requested parameters on all four fields. -/
def transform_matches_params (xkey pkey : CacheKey) : Bool :=
  if xkey.category ≠ pkey.category then false
  else if xkey.render_intent ≠ pkey.render_intent ∨
      xkey.output_profile ≠ pkey.output_profile ∨
      xkey.input_profile ≠ pkey.input_profile then false
  else true

/-- A cached `cmlcms_color_transform`: its object identity, search key and
reference count. -/
structure XfObj where
  id : ℕ
  key : CacheKey
  refcount : ℕ
deriving DecidableEq

/-- A color profile as the reference-count bookkeeping sees it: object
identity and reference count. -/
structure ProfObjC where
  id : ℕ
  refcount : ℕ
deriving DecidableEq

/-- The color manager state relevant to the transform cache:
`cm->color_transform_list`, the profile objects with their reference
counts, and the id a newly created transform would get. -/
structure CmState where
  transforms : List XfObj
  profiles : List ProfObjC
  nextXformId : ℕ
deriving DecidableEq

/-- Increment the reference count of a profile object if it has the given
identity. -/
def bumpProf (pid : ℕ) (q : ProfObjC) : ProfObjC :=
  if q.id = pid then { q with refcount := q.refcount + 1 } else q

/-- Modelled from the spec: `weston_color_profile_ref` — increment the
reference count of the profile with the given identity. -/
def ref_profile_list (pid : ℕ) (l : List ProfObjC) : List ProfObjC :=
  l.map (bumpProf pid)

/-- Modelled from the spec: `weston_color_profile_unref` — decrement the
reference count and destroy the profile exactly when it reaches zero. -/
def unref_profile_list (pid : ℕ) : List ProfObjC → List ProfObjC
  | [] => []
  | q :: t =>
      if q.id = pid then
        (if q.refcount - 1 = 0 then unref_profile_list pid t
         else { q with refcount := q.refcount - 1 } :: unref_profile_list pid t)
      else q :: unref_profile_list pid t

/-- `ref_cprof` from color-profile.c: NULL is a no-op. -/
def ref_cprof_state (l : List ProfObjC) : Option ℕ → List ProfObjC
  | none => l
  | some pid => ref_profile_list pid l

/-- `unref_cprof` from color-profile.c: NULL is a no-op. -/
def unref_cprof_state (l : List ProfObjC) : Option ℕ → List ProfObjC
  | none => l
  | some pid => unref_profile_list pid l

/-- `cmlcms_color_transform_create` at the cache level: take references on
the key's profiles, then build (the output-profile extract computation and
`xform_realize_chain` are collapsed into the `canBuild` oracle since their
outcome depends on LittleCMS data); on success insert the new transform at
the head of the registry with reference count 1; on failure
`cmlcms_color_transform_destroy` releases the profile references (input
first, then output) and the never-inserted transform is freed — the id
from `weston_color_transform_init` is also released back to the
id-number-allocator, restoring it exactly, so the model allocates the id
only on the success path. -/
def cmlcms_color_transform_create_state (canBuild : CacheKey → Bool)
    (s : CmState) (key : CacheKey) : Option ℕ × CmState :=
  let profs1 := ref_cprof_state s.profiles key.input_profile
  let profs2 := ref_cprof_state profs1 (some key.output_profile)
  if canBuild key then
    (some s.nextXformId,
     { transforms := ⟨s.nextXformId, key, 1⟩ :: s.transforms
       profiles := profs2
       nextXformId := s.nextXformId + 1 })
  else
    (none,
     { s with profiles := (unref_cprof_state
        (unref_cprof_state profs2 key.input_profile)
        (some key.output_profile)) })

/-- Increment the reference count of a cached transform if it has the
given identity (`weston_color_transform_ref` on a registry hit, modelled
from the spec). -/
def bumpXf (i : ℕ) (y : XfObj) : XfObj :=
  if y.id = i then { y with refcount := y.refcount + 1 } else y

/-- `cmlcms_color_transform_get` from color-transform.c: walk the
registry; on the first transform matching the search parameters, take a
reference (`weston_color_transform_ref`) and return it; otherwise create
a new transform. -/
def cmlcms_color_transform_get_state (canBuild : CacheKey → Bool)
    (s : CmState) (key : CacheKey) : Option ℕ × CmState :=
  match s.transforms.find? (fun x => transform_matches_params x.key key) with
  | some x =>
      (some x.id, { s with transforms := s.transforms.map (bumpXf x.id) })
  | none => cmlcms_color_transform_create_state canBuild s key

/-- The registry invariant: transform ids are pairwise distinct and below
the next id to be allocated. -/
def CmStateInv (s : CmState) : Prop :=
  s.transforms.Pairwise (fun a b => a.id ≠ b.id) ∧
  ∀ x ∈ s.transforms, x.id < s.nextXformId

/-- An ICC-backed profile in the store: object identity, content (MD5)
hash — the 16-byte digest modelled as a number — profile type tag and
reference count. -/
structure IccProfObj where
  id : ℕ
  md5 : ℕ
  ptype : CmProfileType
  refcount : ℕ
deriving DecidableEq

/-- The profile store state: `cm->color_profile_list` and the id a newly
created profile would get. -/
structure StoreState where
  profiles : List IccProfObj
  nextProfileId : ℕ
deriving DecidableEq

/-- `cmlcms_find_color_profile_by_md5` from color-profile.c: the first
ICC-typed profile whose stored MD5 digest equals the given one. -/
def cmlcms_find_color_profile_by_md5 (s : StoreState) (m : ℕ) :
    Option IccProfObj :=
  s.profiles.find? (fun p =>
    p.ptype == CmProfileType.icc && p.md5 == m)

/-- Increment the reference count of a stored ICC profile if it has the
given identity. -/
def bumpIcc (pid : ℕ) (q : IccProfObj) : IccProfObj :=
  if q.id = pid then { q with refcount := q.refcount + 1 } else q

/-- Modelled from the spec: `weston_color_profile_ref` on the store's
profile list. -/
def ref_icc_profile_list (pid : ℕ) (l : List IccProfObj) :
    List IccProfObj :=
  l.map (bumpIcc pid)

/-- `cmlcms_get_color_profile_from_icc` from color-profile.c: reject
empty and oversized data; open the ICC blob (`cmsOpenProfileFromMemTHR`,
a LittleCMS parse taken as the parameter `openProf` returning the header
data, or nothing when the data is not understood); validate it; compute
the MD5 content hash (`cmsMD5computeID` + `cmsGetHeaderProfileID`, the
parameter `md5OfBytes`, deterministic in the bytes); then return the
existing profile with that hash with its reference count incremented, or
create a new ICC profile at the head of the list with count 1.  The
out-of-memory paths (description string, read-only anonymous file) abort
or fail without touching the store and are not modelled. -/
def cmlcms_get_color_profile_from_icc_state
    (openProf : List ℕ → Option IccHeader)
    (md5OfBytes : List ℕ → Option ℕ)
    (s : StoreState) (data : List ℕ) : Option ℕ × StoreState :=
  if data.length < 1 then (none, s)
  else if 2 ^ 32 - 1 ≤ data.length then (none, s)
  else
    match openProf data with
    | none => (none, s)
    | some hdr =>
        match validate_icc_profile hdr with
        | .error _ => (none, s)
        | .ok _ =>
            match md5OfBytes data with
            | none => (none, s)
            | some m =>
                match cmlcms_find_color_profile_by_md5 s m with
                | some p =>
                    (some p.id,
                     { s with profiles :=
                        ref_icc_profile_list p.id s.profiles })
                | none =>
                    (some s.nextProfileId,
                     { profiles :=
                        ⟨s.nextProfileId, m, .icc, 1⟩ :: s.profiles
                       nextProfileId := s.nextProfileId + 1 })

/-- A concrete INPUT_TO_BLEND cache search key. -/
def sampleCacheKey : CacheKey := ⟨.inputToBlend, none, 0, some .perceptual⟩

/-- A concrete BLEND_TO_OUTPUT cache search key (differs from
`sampleCacheKey` in category and intent). -/
def sampleCacheKey2 : CacheKey := ⟨.blendToOutput, none, 0, none⟩

/-- An empty color-manager cache state. -/
def sampleCmState : CmState := ⟨[], [], 0⟩

/-- The cache state after creating the transform for `sampleCacheKey` in
the empty state. -/
def sampleCmState1 : CmState := ⟨[⟨0, sampleCacheKey, 1⟩], [], 1⟩

/-! ## Parametric profile builder (color-profile-param-builder.c)

The builder accumulates parameters, tracking what has been set in a group
mask and collecting error codes and messages (a memstream in C, a list of
error codes here; the code reported by
`weston_color_profile_param_builder_create_color_profile` is the first
stored error, i.e. the head of the list). -/

/-- A CIE xy chromaticity coordinate. -/
structure CieXy where
  x : ℚ
  y : ℚ
deriving DecidableEq

/-- `struct weston_color_gamut`: three primaries and a white point. -/
structure ColorGamut where
  primary : Fin 3 → CieXy
  white_point : CieXy

instance : DecidableEq ColorGamut := fun a b =>
  decidable_of_iff (a.primary = b.primary ∧ a.white_point = b.white_point)
    (by cases a; cases b; simp)

/-- `enum weston_transfer_function` from color-properties.c. -/
inductive TransferFunction where
  | linear | gamma22 | gamma28 | srgb | extSrgb | bt709 | bt1361 | st240
  | st428 | st2084Pq | log100 | log316 | xvycc | hlg | power
deriving DecidableEq

/-- `enum weston_color_profile_param_builder_error`. -/
inductive BuilderError where
  | invalidPrimaries | invalidTf | invalidTargetPrimaries | invalidLuminance
  | alreadySet | incompleteSet | inconsistentSet | cieXyOutOfRange
  | inconsistentLuminances | unsupported
deriving DecidableEq

/-- `struct weston_color_profile_param_builder`: the six `group_mask` bits
as booleans, the accumulated parameter values (meaningful only when the
corresponding bit is set; zero-initialized by `xzalloc` otherwise, so the
transfer function defaults to the zero enum value `linear`), and the
collected error codes in order (first = reported code). -/
structure ParamBuilder where
  primaries_set : Bool
  tf_set : Bool
  target_primaries_set : Bool
  luminance_set : Bool
  maxcll_set : Bool
  maxfall_set : Bool
  primaries : ColorGamut
  target_primaries : ColorGamut
  tf : TransferFunction
  tf_power : ℚ
  min_luminance : ℚ
  max_luminance : ℚ
  maxCLL : ℚ
  maxFALL : ℚ
  errs : List BuilderError

instance : DecidableEq ParamBuilder := fun a b =>
  decidable_of_iff
    (a.primaries_set = b.primaries_set ∧ a.tf_set = b.tf_set ∧
      a.target_primaries_set = b.target_primaries_set ∧
      a.luminance_set = b.luminance_set ∧ a.maxcll_set = b.maxcll_set ∧
      a.maxfall_set = b.maxfall_set ∧ a.primaries = b.primaries ∧
      a.target_primaries = b.target_primaries ∧ a.tf = b.tf ∧
      a.tf_power = b.tf_power ∧ a.min_luminance = b.min_luminance ∧
      a.max_luminance = b.max_luminance ∧ a.maxCLL = b.maxCLL ∧
      a.maxFALL = b.maxFALL ∧ a.errs = b.errs)
    (by cases a; cases b; simp)

instance {e a : Type} [DecidableEq e] [DecidableEq a] :
    DecidableEq (Except e a) := fun x y =>
  match x, y with
  | .error e1, .error e2 => decidable_of_iff (e1 = e2) (by simp)
  | .ok v1, .ok v2 => decidable_of_iff (v1 = v2) (by simp)
  | .error _, .ok _ => isFalse (fun h => Except.noConfusion h)
  | .ok _, .error _ => isFalse (fun h => Except.noConfusion h)

/-- `store_error`: append the error code (the C also appends a message to
the memstream; the first stored code is the one later reported). -/
def store_error (b : ParamBuilder) (e : BuilderError) : ParamBuilder :=
  { b with errs := b.errs ++ [e] }

/-- `weston_color_profile_param_builder_set_target_luminance`: fails when
the luminance group was already set or `min >= max`. -/
def weston_color_profile_param_builder_set_target_luminance
    (b : ParamBuilder) (minL maxL : ℚ) : ParamBuilder × Bool :=
  let e1 := b.luminance_set
  let e2 := decide (minL ≥ maxL)
  let b1 := if e1 then store_error b .alreadySet else b
  let b2 := if e2 then store_error b1 .invalidLuminance else b1
  if e1 || e2 then (b2, false)
  else
    ({ b2 with
        min_luminance := minL
        max_luminance := maxL
        luminance_set := true }, true)

/-- `weston_color_profile_param_builder_set_maxCLL`: fails when maxCLL was
already set. -/
def weston_color_profile_param_builder_set_maxCLL
    (b : ParamBuilder) (v : ℚ) : ParamBuilder × Bool :=
  if b.maxcll_set then (store_error b .alreadySet, false)
  else ({ b with maxCLL := v, maxcll_set := true }, true)

/-- `weston_color_profile_param_builder_set_maxFALL`: fails when maxFALL
was already set. -/
def weston_color_profile_param_builder_set_maxFALL
    (b : ParamBuilder) (v : ℚ) : ParamBuilder × Bool :=
  if b.maxfall_set then (store_error b .alreadySet, false)
  else ({ b with maxFALL := v, maxfall_set := true }, true)

/-- `builder_validate_params_set`: primaries and transfer function are
mandatory (INCOMPLETE_SET each), and any luminance-group field requires
the PQ transfer function (INCONSISTENT_SET).  The PQ check reads
`builder->params.tf_info->tf` unconditionally; `tf_info` is only ever
assigned by the two transfer-function setters, so when the transfer
function was never set it is still the NULL from `xzalloc` and the
dereference crashes — after the incomplete-set errors were stored but
before anything is reported.  The crash is `none`; on a tf-set builder
the stored codes are returned in store order. -/
def builder_validate_params_set_errors (b : ParamBuilder) :
    Option (List BuilderError) :=
  if b.tf_set then
    some ((if ¬b.primaries_set then [.incompleteSet] else []) ++
      (if b.tf ≠ .st2084Pq ∧
          (b.luminance_set ∨ b.maxcll_set ∨ b.maxfall_set) then
        [.inconsistentSet]
      else []))
  else none

/-- `triangle_area`: the shoelace formula. -/
def triangle_area (x1 y1 x2 y2 x3 y3 : ℚ) : ℚ :=
  |(x1 - x3) * (y2 - y1) - (x1 - x2) * (y3 - y1)| / 2

/-- `is_point_inside_triangle`: degenerate triangles (area within the 1e-5
precision) are rejected; otherwise the point is inside when the three
sub-triangle areas sum to the full area within the precision. -/
def is_point_inside_triangle (px py x1 y1 x2 y2 x3 y3 : ℚ) : Bool :=
  let PRECISION : ℚ := 1 / 100000
  let A := triangle_area x1 y1 x2 y2 x3 y3
  if A ≤ PRECISION then false
  else
    let A1 := triangle_area px py x1 y1 x2 y2
    let A2 := triangle_area px py x1 y1 x3 y3
    let A3 := triangle_area px py x2 y2 x3 y3
    decide (|A - (A1 + A2 + A3)| ≤ PRECISION)

/-- The CIE xy legal-range check of `validate_color_gamut`: every
coordinate of the white point and the three primaries must lie in
[-1.0, 2.0]. -/
def gamut_coord_out_of_range (g : ColorGamut) : Bool :=
  decide (g.white_point.x < -1 ∨ g.white_point.x > 2 ∨
    g.white_point.y < -1 ∨ g.white_point.y > 2 ∨
    (g.primary 0).x < -1 ∨ (g.primary 0).x > 2 ∨
    (g.primary 0).y < -1 ∨ (g.primary 0).y > 2 ∨
    (g.primary 1).x < -1 ∨ (g.primary 1).x > 2 ∨
    (g.primary 1).y < -1 ∨ (g.primary 1).y > 2 ∨
    (g.primary 2).x < -1 ∨ (g.primary 2).x > 2 ∨
    (g.primary 2).y < -1 ∨ (g.primary 2).y > 2)

/-- `validate_color_gamut`, as the list of error codes it stores: a
coordinate out of range stops the check; otherwise the white point must
lie inside the primaries' triangle. -/
def validate_color_gamut_errors (g : ColorGamut) : List BuilderError :=
  if gamut_coord_out_of_range g then [.cieXyOutOfRange]
  else if ¬(is_point_inside_triangle g.white_point.x g.white_point.y
      (g.primary 0).x (g.primary 0).y (g.primary 1).x (g.primary 1).y
      (g.primary 2).x (g.primary 2).y = true) then
    [.cieXyOutOfRange]
  else []

/-- `validate_maxcll`, as the list of error codes it stores: nothing to
check unless the luminance group is set; then maxCLL must be above the
minimum luminance (strictly: `min >= maxCLL` is an error) and at most the
maximum luminance. -/
def validate_maxcll_errors (b : ParamBuilder) : List BuilderError :=
  if ¬b.luminance_set then []
  else
    (if b.min_luminance ≥ b.maxCLL then [.inconsistentLuminances]
     else []) ++
    (if b.max_luminance < b.maxCLL then [.inconsistentLuminances]
     else [])

/-- `validate_maxfall`, the same checks for maxFALL. -/
def validate_maxfall_errors (b : ParamBuilder) : List BuilderError :=
  if ¬b.luminance_set then []
  else
    (if b.min_luminance ≥ b.maxFALL then [.inconsistentLuminances]
     else []) ++
    (if b.max_luminance < b.maxFALL then [.inconsistentLuminances]
     else [])

/-- `builder_validate_params`, as the list of error codes it stores, in
store order: primaries gamut, target-primaries gamut, maxCLL, maxFALL —
each only when the corresponding group was set. -/
def builder_validate_params_errors (b : ParamBuilder) : List BuilderError :=
  (if b.primaries_set then validate_color_gamut_errors b.primaries
   else []) ++
  (if b.target_primaries_set then
    validate_color_gamut_errors b.target_primaries
  else []) ++
  (if b.maxcll_set then validate_maxcll_errors b else []) ++
  (if b.maxfall_set then validate_maxfall_errors b else [])

/-- `builder_complete_params`: default the target primaries to the
primaries and every unset luminance-group value to the negative
sentinel -1. -/
def builder_complete_params (b : ParamBuilder) : ParamBuilder :=
  { b with
      target_primaries :=
        if ¬b.target_primaries_set then b.primaries else b.target_primaries
      min_luminance := if ¬b.luminance_set then -1 else b.min_luminance
      max_luminance := if ¬b.luminance_set then -1 else b.max_luminance
      maxCLL := if ¬b.maxcll_set then -1 else b.maxCLL
      maxFALL := if ¬b.maxfall_set then -1 else b.maxFALL }

/-- `weston_color_profile_param_builder_create_color_profile`: complete
the params, validate the set and each param, and fail with the first
collected error code (plus all collected codes) if any error was
collected — including errors stored earlier by setters; on success the
completed, validated parameter set is handed to the color manager
(`cm->get_color_profile_from_params`, outside this model) and returned
here.  The builder is destroyed in both cases.  When the transfer
function was never set, `builder_validate_params_set` crashes on the
NULL `tf_info` dereference, so the call never returns (`none`). -/
def weston_color_profile_param_builder_create_color_profile
    (b : ParamBuilder) :
    Option (Except (BuilderError × List BuilderError) ParamBuilder) :=
  let bc := builder_complete_params b
  match builder_validate_params_set_errors bc with
  | none => none
  | some setErrs =>
      let errs := b.errs ++ setErrs ++ builder_validate_params_errors bc
      match errs with
      | [] => some (.ok bc)
      | e :: _ => some (.error (e, errs))

/-- The Rec. 709 / sRGB color gamut as exact rationals. -/
def rec709Gamut : ColorGamut :=
  ⟨fun i =>
    if i = 0 then ⟨64 / 100, 33 / 100⟩
    else if i = 1 then ⟨30 / 100, 60 / 100⟩
    else ⟨15 / 100, 6 / 100⟩,
   ⟨3127 / 10000, 3290 / 10000⟩⟩

/-- The C3 scenario builder: valid primaries, PQ transfer function, target
luminance [100, 500] and maxCLL 50 set (the state the luminance-group
setters produce), no other group set, no prior errors. -/
def sampleMaxCllBuilder : ParamBuilder :=
  ⟨true, true, false, true, true, false, rec709Gamut, rec709Gamut,
   .st2084Pq, 0, 100, 500, 50, 0, []⟩

/-- A consistent builder (PQ, luminance [100, 500], maxCLL 300,
maxFALL 200) whose profile creation passes validation. -/
def sampleGoodBuilder : ParamBuilder :=
  ⟨true, true, false, true, true, true, rec709Gamut, rec709Gamut,
   .st2084Pq, 0, 100, 500, 300, 200, []⟩

/-- A reachable builder state with the target luminance group and an
out-of-range maxCLL set but the transfer function never set: the
primaries, luminance [100, 500] and maxCLL 50 setters do not require the
transfer function, so its group bit stays clear (`tf_info` still the
NULL from `xzalloc`; the zero-initialized enum here). -/
def sampleTfUnsetBuilder : ParamBuilder :=
  ⟨true, false, false, true, true, false, rec709Gamut, rec709Gamut,
   .linear, 0, 100, 500, 50, 0, []⟩

theorem loopConcat_length {α : Type} (n k : ℕ) (f : ℕ → List α)
    (hk : ∀ i, i < n → (f i).length = k) :
    (loopConcat n f).length = n * k := by
  induction n with
  | zero => simp [loopConcat]
  | succ m ih =>
      simp only [loopConcat, List.length_append]
      rw [ih (fun i hi => hk i (Nat.lt_succ_of_lt hi)), hk m (Nat.lt_succ_self m)]
      ring

theorem loopConcat_get {α : Type} (n k : ℕ) (f : ℕ → List α)
    (hk : ∀ i, i < n → (f i).length = k) (i j : ℕ) (hi : i < n) (hj : j < k) :
    (loopConcat n f).get? (k * i + j) = (f i).get? j := by
  induction n with
  | zero => exact absurd hi (Nat.not_lt_zero i)
  | succ m ih =>
      simp only [loopConcat]
      rcases Nat.lt_or_ge i m with him | him
      · rw [List.get?_append]
        · exact ih (fun a ha => hk a (Nat.lt_succ_of_lt ha)) him
        · rw [loopConcat_length m k f (fun a ha => hk a (Nat.lt_succ_of_lt ha))]
          calc k * i + j < k * i + k := by omega
            _ = k * (i + 1) := by ring
            _ ≤ k * m := Nat.mul_le_mul_left k him
            _ = m * k := Nat.mul_comm k m
      · have hieq : i = m := Nat.le_antisymm (Nat.lt_succ_iff.mp hi) him
        subst hieq
        have hlen : (loopConcat i f).length = i * k :=
          loopConcat_length i k f (fun a ha => hk a (Nat.lt_succ_of_lt ha))
        rw [List.get?_append_right]
        · rw [hlen]
          congr 1
          rw [Nat.mul_comm i k]
          omega
        · rw [hlen]
          rw [Nat.mul_comm i k]
          omega

/-- C2 (amended): for every grid side `len ≥ 2` the 3D-LUT fill-in stores at
index `3 * (r + len * (g + len * b)) + ch` the `ensure_unorm`-clamped channel
`ch` of the pipeline evaluated at the grid point `(r, g, b) / (len - 1)`
(blue-major, red-minor order); the clamp maps finite values to
`max 0 (min 1 q)`, passes NaN through unchanged, and clamps infinities. -/
theorem fill_in_3dlut_grid_characterization
    (eval : ℚ → ℚ → ℚ → FVal × FVal × FVal) (len r g b ch : ℕ)
    (hlen : 2 ≤ len) (hr : r < len) (hg : g < len) (hb : b < len)
    (hch : ch < 3) :
    (cmlcms_fill_in_3dlut eval len).get? (3 * (r + len * (g + len * b)) + ch) =
      some (ensure_unorm (rgbChannel ch
        (eval ((r : ℚ) / ((len : ℚ) - 1)) ((g : ℚ) / ((len : ℚ) - 1))
              ((b : ℚ) / ((len : ℚ) - 1)))))
    ∧ ensure_unorm .nan = .nan
    ∧ ensure_unorm .posInf = .finite 1
    ∧ ensure_unorm .negInf = .finite 0
    ∧ (∀ q : ℚ, ensure_unorm (.finite q) = .finite (max 0 (min 1 q))) := by
  refine ⟨?_, rfl, rfl, rfl, ?_⟩
  · simp only [cmlcms_fill_in_3dlut]
    have hinner3 : ∀ (vb vg vr : ℕ),
        ([ensure_unorm (eval ((vr : ℚ) / ((len : ℚ) - 1))
            ((vg : ℚ) / ((len : ℚ) - 1)) ((vb : ℚ) / ((len : ℚ) - 1))).1,
          ensure_unorm (eval ((vr : ℚ) / ((len : ℚ) - 1))
            ((vg : ℚ) / ((len : ℚ) - 1)) ((vb : ℚ) / ((len : ℚ) - 1))).2.1,
          ensure_unorm (eval ((vr : ℚ) / ((len : ℚ) - 1))
            ((vg : ℚ) / ((len : ℚ) - 1)) ((vb : ℚ) / ((len : ℚ) - 1))).2.2] :
            List FVal).length = 3 := by
      intro vb vg vr
      rfl
    have hmidlen : ∀ vb, vb < len → ∀ vg, vg < len →
        (loopConcat len (fun value_r =>
          [ensure_unorm (eval ((value_r : ℚ) / ((len : ℚ) - 1))
              ((vg : ℚ) / ((len : ℚ) - 1)) ((vb : ℚ) / ((len : ℚ) - 1))).1,
            ensure_unorm (eval ((value_r : ℚ) / ((len : ℚ) - 1))
              ((vg : ℚ) / ((len : ℚ) - 1)) ((vb : ℚ) / ((len : ℚ) - 1))).2.1,
            ensure_unorm (eval ((value_r : ℚ) / ((len : ℚ) - 1))
              ((vg : ℚ) / ((len : ℚ) - 1)) ((vb : ℚ) / ((len : ℚ) - 1))).2.2])).length
          = len * 3 := by
      intro vb _ vg _
      exact loopConcat_length len 3 _ (fun i _ => rfl)
    have e1 : 3 * (r + len * (g + len * b)) + ch =
        (len * (len * 3)) * b + (3 * (r + len * g) + ch) := by ring
    rw [e1]
    rw [loopConcat_get len (len * (len * 3)) _ ?_ b (3 * (r + len * g) + ch) hb ?_]
    · have e2 : 3 * (r + len * g) + ch = (len * 3) * g + (3 * r + ch) := by ring
      rw [e2]
      rw [loopConcat_get len (len * 3) _ (fun vg _ => hmidlen b hb vg (by omega))
            g (3 * r + ch) hg (by omega)]
      rw [loopConcat_get len 3 _ (fun vr _ => hinner3 b g vr) r ch hr hch]
      interval_cases ch <;> rfl
    · intro vb hvb
      exact loopConcat_length len (len * 3) _ (fun vg hvg => hmidlen vb hvb vg hvg)
    · have hmul : len * (g + 1) ≤ len * len := Nat.mul_le_mul_left len hg
      have hexp : len * (g + 1) = len * g + len := by ring
      have hz : len * (len * 3) = 3 * (len * len) := by ring
      omega
  · intro q
    simp only [ensure_unorm, FVal.le_zero, FVal.gt_one]
    by_cases h0 : q ≤ 0
    · rw [if_pos (by simpa using h0)]
      rw [min_eq_right (h0.trans zero_le_one), max_eq_left h0]
    · by_cases h1 : 1 < q
      · rw [if_neg (by simpa using h0), if_pos (by simpa using h1)]
        rw [min_eq_left h1.le, max_eq_right zero_le_one]
      · rw [if_neg (by simpa using h0), if_neg (by simpa using h1)]
        rw [min_eq_right (le_of_not_lt h1), max_eq_right (le_of_not_le h0)]

/-- C2 witness: the characterization evaluated at `len = 2`, grid point
`(r, g, b) = (1, 0, 1)`, blue channel. -/
theorem fill_in_3dlut_grid_characterization_witness :
    (cmlcms_fill_in_3dlut
        (fun r g b => (FVal.finite r, FVal.finite g, FVal.finite b)) 2).get?
        (3 * (1 + 2 * (0 + 2 * 1)) + 2) =
      some (ensure_unorm (rgbChannel 2
        ((fun r g b => (FVal.finite r, FVal.finite g, FVal.finite b))
          (((1 : ℕ) : ℚ) / (((2 : ℕ) : ℚ) - 1))
          (((0 : ℕ) : ℚ) / (((2 : ℕ) : ℚ) - 1))
          (((1 : ℕ) : ℚ) / (((2 : ℕ) : ℚ) - 1))))) :=
  (fill_in_3dlut_grid_characterization
    (fun r g b => (FVal.finite r, FVal.finite g, FVal.finite b))
    2 1 0 1 2 (by decide) (by decide) (by decide) (by decide) (by decide)).1

/-- C2 counterexample: the claim that non-finite values are passed through
unchanged is false — `ensure_unorm` clamps +infinity to 1.0 (and -infinity
to 0.0); only NaN passes through.  Shown on the actual 3D-LUT fill-in with a
pipeline producing +infinity on the red channel everywhere. -/
theorem fill_in_3dlut_nonfinite_counterexample :
    (cmlcms_fill_in_3dlut (fun _ _ _ => (FVal.posInf, FVal.negInf, FVal.nan))
        2).get? 0 = some (FVal.finite 1)
    ∧ ensure_unorm FVal.posInf ≠ FVal.posInf
    ∧ ensure_unorm FVal.negInf ≠ FVal.negInf
    ∧ ensure_unorm FVal.nan = FVal.nan := by
  decide

/-- C9: `validate_icc_profile` accepts exactly the headers with major
version 2 or 4, three channels and Display device class; each violation is
reported with its distinguishing validation error (checked in that order),
and the function is total — no input can crash it. -/
theorem validate_icc_profile_spec (h : IccHeader) :
    (validate_icc_profile h = .ok () ↔
      (iccMajorVersion h = 2 ∨ iccMajorVersion h = 4) ∧ h.nrChannels = 3 ∧
        h.deviceClass = .display)
    ∧ (iccMajorVersion h ≠ 2 ∧ iccMajorVersion h ≠ 4 →
        validate_icc_profile h =
          .error (.unsupportedMajorVersion (iccMajorVersion h)))
    ∧ ((iccMajorVersion h = 2 ∨ iccMajorVersion h = 4) → h.nrChannels ≠ 3 →
        validate_icc_profile h = .error (.wrongChannelCount h.nrChannels))
    ∧ ((iccMajorVersion h = 2 ∨ iccMajorVersion h = 4) → h.nrChannels = 3 →
        h.deviceClass ≠ .display →
        validate_icc_profile h = .error (.wrongDeviceClass h.deviceClass)) := by
  by_cases hv : iccMajorVersion h ≠ 2 ∧ iccMajorVersion h ≠ 4
  · have hval : validate_icc_profile h =
        .error (.unsupportedMajorVersion (iccMajorVersion h)) := by
      unfold validate_icc_profile
      rw [if_pos hv]
    refine ⟨by simp [hval, hv.1, hv.2], fun _ => hval, ?_, ?_⟩
    · intro hmaj _
      exact absurd hmaj (by tauto)
    · intro hmaj _ _
      exact absurd hmaj (by tauto)
  · have hmaj : iccMajorVersion h = 2 ∨ iccMajorVersion h = 4 := by tauto
    by_cases hch : h.nrChannels = 3
    · by_cases hcl : h.deviceClass = .display
      · have hval : validate_icc_profile h = .ok () := by
          unfold validate_icc_profile
          rw [if_neg hv, if_neg (by simpa using hch), if_neg (by simpa using hcl)]
        refine ⟨by simp [hval, hmaj, hch, hcl], fun hcon => absurd hcon hv, ?_, ?_⟩
        · intro _ hcon
          exact absurd hch hcon
        · intro _ _ hcon
          exact absurd hcl hcon
      · have hval : validate_icc_profile h =
            .error (.wrongDeviceClass h.deviceClass) := by
          unfold validate_icc_profile
          rw [if_neg hv, if_neg (by simpa using hch), if_pos hcl]
        refine ⟨by simp [hval, hcl], fun hcon => absurd hcon hv, ?_, fun _ _ _ => hval⟩
        intro _ hcon
        exact absurd hch hcon
    · have hval : validate_icc_profile h =
          .error (.wrongChannelCount h.nrChannels) := by
        unfold validate_icc_profile
        rw [if_neg hv, if_pos hch]
      refine ⟨by simp [hval, hch], fun hcon => absurd hcon hv, fun _ _ => hval, ?_⟩
      intro _ hcon _
      exact absurd hcon hch

/-- C9 witness: a version-4 Display RGB header is accepted; a version-3
header is rejected with the unsupported-major-version error. -/
theorem validate_icc_profile_spec_witness :
    validate_icc_profile ⟨4 * 2 ^ 24, 3, .display⟩ = .ok ()
    ∧ validate_icc_profile ⟨3 * 2 ^ 24, 3, .display⟩ =
        .error (.unsupportedMajorVersion 3) := by
  constructor
  · exact (validate_icc_profile_spec ⟨4 * 2 ^ 24, 3, .display⟩).1.mpr
      (by constructor
          · right
            decide
          · exact ⟨rfl, rfl⟩)
  · have := (validate_icc_profile_spec ⟨3 * 2 ^ 24, 3, .display⟩).2.1
      (by constructor <;> decide)
    simpa [iccMajorVersion] using this

/-- C5: translating a LittleCMS type 1 curve-set always succeeds and yields
a LINPOW curve with the same exponent `g` and `a = 1, b = 0, c = 1, d = 0`
in every channel; evaluating such a curve with `g = 2.2` at `x = 0.5` gives
`0.5 ^ 2.2` (real power, ≈ 0.2176). -/
theorem linpow_from_type_1_spec (tp : Fin 3 → Fin 10 → ℚ) (ci : Bool) :
    linpow_from_type_1 tp ci =
      some ⟨.linpow, ci, fun i => ⟨tp i 0, 1, 0, 1, 0⟩⟩
    ∧ linpow_eval ⟨11 / 5, 1, 0, 1, 0⟩ false (1 / 2) =
        Real.rpow (1 / 2) (11 / 5) := by
  constructor
  · rfl
  · unfold linpow_eval linpow_eval_nonneg
    norm_num

/-- C4: translating a LittleCMS type -4 curve-set fails exactly when some
channel of the original type 4 parameters has `g = 0`, `a = 0` or `c = 0`;
on success it yields a POWLIN curve with per-channel parameters
`g' = 1/g`, `a' = 1/a`, `b' = -b/a`, `c' = 1/c`, `d' = c*d`. -/
theorem powlin_from_type_4_inverse_spec (tp : Fin 3 → Fin 10 → ℚ)
    (ci : Bool) :
    (powlin_from_type_4_inverse tp ci = none ↔
      ∃ i : Fin 3, tp i 0 = 0 ∨ tp i 1 = 0 ∨ tp i 3 = 0)
    ∧ ((∀ i : Fin 3, tp i 0 ≠ 0 ∧ tp i 1 ≠ 0 ∧ tp i 3 ≠ 0) →
        powlin_from_type_4_inverse tp ci =
          some ⟨.powlin, ci, fun i =>
            ⟨1 / tp i 0, 1 / tp i 1, -(tp i 2) / tp i 1, 1 / tp i 3,
             tp i 3 * tp i 4⟩⟩) := by
  constructor
  · unfold powlin_from_type_4_inverse
    by_cases hall : ∀ i : Fin 3, tp i 0 ≠ 0 ∧ tp i 1 ≠ 0 ∧ tp i 3 ≠ 0
    · rw [if_pos hall]
      simp only [reduceCtorEq, false_iff]
      push_neg
      exact hall
    · rw [if_neg hall]
      simp only [true_iff]
      push_neg at hall
      obtain ⟨i, hi⟩ := hall
      exact ⟨i, by tauto⟩
  · intro hall
    unfold powlin_from_type_4_inverse
    rw [if_pos hall]

/-- C4 witness: the type -4 translation applied to the constant parameter
set `g = a = b = c = d = 2` in every channel. -/
theorem powlin_from_type_4_inverse_spec_witness :
    powlin_from_type_4_inverse (fun _ _ => (2 : ℚ)) false =
      some ⟨.powlin, false, fun i =>
        ⟨1 / ((fun (_ : Fin 3) (_ : Fin 10) => (2 : ℚ)) i 0),
         1 / ((fun (_ : Fin 3) (_ : Fin 10) => (2 : ℚ)) i 1),
         -((fun (_ : Fin 3) (_ : Fin 10) => (2 : ℚ)) i 2) /
           ((fun (_ : Fin 3) (_ : Fin 10) => (2 : ℚ)) i 1),
         1 / ((fun (_ : Fin 3) (_ : Fin 10) => (2 : ℚ)) i 3),
         ((fun (_ : Fin 3) (_ : Fin 10) => (2 : ℚ)) i 3) *
           ((fun (_ : Fin 3) (_ : Fin 10) => (2 : ℚ)) i 4)⟩⟩ :=
  (powlin_from_type_4_inverse_spec (fun _ _ => (2 : ℚ)) false).2
    (fun _ => by norm_num)

theorem merge_matrices_go_not_modified {C : Type} :
    ∀ (elems : List (Stage C)) (prev : Option (Stage C)) (q : List (Stage C)),
      merge_matrices_go prev elems = (q, false) →
      q = pendingList prev ++ elems := by
  intro elems
  induction elems with
  | nil =>
      intro prev q h
      cases prev with
      | none =>
          simp only [merge_matrices_go, Prod.mk.injEq] at h
          rw [← h.1]
          simp [pendingList]
      | some p =>
          simp only [merge_matrices_go] at h
          by_cases hid : is_identity_matrix_stage p = true
          · rw [if_pos hid] at h
            injection h with h1 h2
            exact Bool.noConfusion h2
          · rw [if_neg hid] at h
            injection h with h1 h2
            rw [← h1]
            simp [pendingList]
  | cons e rest ih =>
      intro prev q h
      cases prev with
      | none =>
          simp only [merge_matrices_go] at h
          have := ih (some e) q h
          simpa [pendingList] using this
      | some p =>
          simp only [merge_matrices_go] at h
          by_cases hm : (is_matrix_stage_with_zero_offset p &&
              is_matrix_stage_with_zero_offset e) = true
          · rw [if_pos hm] at h
            injection h with h1 h2
            exact Bool.noConfusion h2
          · rw [if_neg hm] at h
            by_cases hid : is_identity_matrix_stage p = true
            · rw [if_pos hid] at h
              injection h with h1 h2
              exact Bool.noConfusion h2
            · rw [if_neg hid] at h
              injection h with h1 h2
              have hr : merge_matrices_go (some e) rest =
                  ((merge_matrices_go (some e) rest).1, false) := by
                rw [← h2]
              have hres := ih (some e) (merge_matrices_go (some e) rest).1 hr
              rw [← h1, hres]
              simp [pendingList]

theorem merge_matrices_go_length {C : Type} :
    ∀ (elems : List (Stage C)) (prev : Option (Stage C)),
      (merge_matrices_go prev elems).1.length ≤
        (pendingList prev).length + elems.length
      ∧ ((merge_matrices_go prev elems).2 = true →
          (merge_matrices_go prev elems).1.length <
            (pendingList prev).length + elems.length) := by
  intro elems
  induction elems with
  | nil =>
      intro prev
      cases prev with
      | none => simp [merge_matrices_go, pendingList]
      | some p =>
          by_cases hid : is_identity_matrix_stage p = true <;>
            simp [merge_matrices_go, pendingList, hid]
  | cons e rest ih =>
      intro prev
      cases prev with
      | none =>
          have h := ih (some e)
          simp only [merge_matrices_go, pendingList, List.length_cons,
            List.length_nil] at h ⊢
          exact ⟨by omega, fun hmod => by have := h.2 hmod; omega⟩
      | some p =>
          by_cases hm : (is_matrix_stage_with_zero_offset p &&
              is_matrix_stage_with_zero_offset e) = true
          · have h := ih (some (multiply_matrix_stages e p))
            simp only [merge_matrices_go, if_pos hm, pendingList,
              List.length_cons, List.length_nil] at h ⊢
            exact ⟨by omega, fun _ => by omega⟩
          · by_cases hid : is_identity_matrix_stage p = true
            · have h := ih (some e)
              simp only [merge_matrices_go, if_neg hm, if_pos hid, pendingList,
                List.length_cons, List.length_nil] at h ⊢
              exact ⟨by omega, fun _ => by omega⟩
            · have h := ih (some e)
              simp only [merge_matrices_go, if_neg hm, if_neg hid, pendingList,
                List.length_cons, List.length_nil] at h ⊢
              exact ⟨by omega, fun hmod => by have := h.2 hmod; omega⟩

theorem merge_curvesets_go_not_modified {C : Type} (ops : CurveOps C) :
    ∀ (elems : List (Stage C)) (prev : Option (Stage C)) (q : List (Stage C)),
      merge_curvesets_go ops prev elems = (q, false) →
      q = pendingList prev ++ elems := by
  intro elems
  induction elems with
  | nil =>
      intro prev q h
      cases prev with
      | none =>
          simp only [merge_curvesets_go, Prod.mk.injEq] at h
          rw [← h.1]
          simp [pendingList]
      | some p =>
          simp only [merge_curvesets_go] at h
          by_cases hid : is_identity_curve_stage ops p = true
          · rw [if_pos hid] at h
            injection h with h1 h2
            exact Bool.noConfusion h2
          · rw [if_neg hid] at h
            injection h with h1 h2
            rw [← h1]
            simp [pendingList]
  | cons e rest ih =>
      intro prev q h
      cases prev with
      | none =>
          unfold merge_curvesets_go at h
          have := ih (some e) q h
          simpa [pendingList] using this
      | some p =>
          cases p with
          | curveSet cp =>
              cases e with
              | curveSet ce =>
                  unfold merge_curvesets_go at h
                  dsimp only at h
                  by_cases hinv : ops.areInverse cp ce = true
                  · rw [if_pos hinv] at h
                    cases rest with
                    | nil =>
                        injection h with h1 h2
                        exact Bool.noConfusion h2
                    | cons e2 rest2 =>
                        injection h with h1 h2
                        exact Bool.noConfusion h2
                  · rw [if_neg hinv] at h
                    injection h with h1 h2
                    exact Bool.noConfusion h2
              | matrix me oe =>
                  unfold merge_curvesets_go at h
                  dsimp only at h
                  by_cases hid :
                      is_identity_curve_stage ops (Stage.curveSet cp) = true
                  · rw [if_pos hid] at h
                    injection h with h1 h2
                    exact Bool.noConfusion h2
                  · rw [if_neg hid] at h
                    injection h with h1 h2
                    have hr : merge_curvesets_go ops
                        (some (.matrix me oe)) rest =
                        ((merge_curvesets_go ops
                          (some (.matrix me oe)) rest).1, false) := by
                      rw [← h2]
                    have hres := ih (some (.matrix me oe)) _ hr
                    rw [← h1, hres]
                    simp [pendingList]
              | other =>
                  unfold merge_curvesets_go at h
                  dsimp only at h
                  by_cases hid :
                      is_identity_curve_stage ops (Stage.curveSet cp) = true
                  · rw [if_pos hid] at h
                    injection h with h1 h2
                    exact Bool.noConfusion h2
                  · rw [if_neg hid] at h
                    injection h with h1 h2
                    have hr : merge_curvesets_go ops (some .other) rest =
                        ((merge_curvesets_go ops (some .other) rest).1,
                          false) := by
                      rw [← h2]
                    have hres := ih (some .other) _ hr
                    rw [← h1, hres]
                    simp [pendingList]
          | matrix mp op =>
              unfold merge_curvesets_go at h
              dsimp only at h
              by_cases hid :
                  is_identity_curve_stage ops (Stage.matrix mp op) = true
              · rw [if_pos hid] at h
                injection h with h1 h2
                exact Bool.noConfusion h2
              · rw [if_neg hid] at h
                injection h with h1 h2
                have hr : merge_curvesets_go ops (some e) rest =
                    ((merge_curvesets_go ops (some e) rest).1, false) := by
                  rw [← h2]
                have hres := ih (some e) _ hr
                rw [← h1, hres]
                simp [pendingList]
          | other =>
              unfold merge_curvesets_go at h
              dsimp only at h
              by_cases hid : is_identity_curve_stage ops
                  (Stage.other : Stage C) = true
              · rw [if_pos hid] at h
                injection h with h1 h2
                exact Bool.noConfusion h2
              · rw [if_neg hid] at h
                injection h with h1 h2
                have hr : merge_curvesets_go ops (some e) rest =
                    ((merge_curvesets_go ops (some e) rest).1, false) := by
                  rw [← h2]
                have hres := ih (some e) _ hr
                rw [← h1, hres]
                simp [pendingList]

theorem merge_curvesets_go_length {C : Type} (ops : CurveOps C) :
    ∀ (n : ℕ) (elems : List (Stage C)) (prev : Option (Stage C)),
      elems.length ≤ n →
      (merge_curvesets_go ops prev elems).1.length ≤
        (pendingList prev).length + elems.length
      ∧ ((merge_curvesets_go ops prev elems).2 = true →
          (merge_curvesets_go ops prev elems).1.length <
            (pendingList prev).length + elems.length) := by
  intro n
  induction n with
  | zero =>
      intro elems prev hb
      have he : elems = [] := List.length_eq_zero.mp (Nat.le_zero.mp hb)
      subst he
      cases prev with
      | none => simp [merge_curvesets_go, pendingList]
      | some p =>
          by_cases hid : is_identity_curve_stage ops p = true <;>
            simp [merge_curvesets_go, pendingList, hid]
  | succ m ih =>
      intro elems prev hb
      cases elems with
      | nil =>
          cases prev with
          | none => simp [merge_curvesets_go, pendingList]
          | some p =>
              by_cases hid : is_identity_curve_stage ops p = true <;>
                simp [merge_curvesets_go, pendingList, hid]
      | cons e rest =>
          have hrest : rest.length ≤ m := by
            simp only [List.length_cons] at hb
            omega
          cases prev with
          | none =>
              have h := ih rest (some e) hrest
              unfold merge_curvesets_go
              simp only [pendingList, List.length_cons, List.length_nil]
                at h ⊢
              exact ⟨by omega, fun hmod => by have := h.2 hmod; omega⟩
          | some p =>
              cases p with
              | curveSet cp =>
                  cases e with
                  | curveSet ce =>
                      unfold merge_curvesets_go
                      dsimp only
                      by_cases hinv : ops.areInverse cp ce = true
                      · rw [if_pos hinv]
                        cases rest with
                        | nil => simp [pendingList]
                        | cons e2 rest2 =>
                            have h := ih rest2 (some e2) (by
                              simp only [List.length_cons] at hrest
                              omega)
                            simp only [pendingList, List.length_cons,
                              List.length_nil] at h ⊢
                            exact ⟨by omega, fun _ => by omega⟩
                      · rw [if_neg hinv]
                        have h := ih rest
                          (some (.curveSet (ops.join cp ce))) hrest
                        simp only [pendingList, List.length_cons,
                          List.length_nil] at h ⊢
                        exact ⟨by omega, fun _ => by omega⟩
                  | matrix me oe =>
                      unfold merge_curvesets_go
                      dsimp only
                      have h := ih rest (some (.matrix me oe)) hrest
                      by_cases hid :
                          is_identity_curve_stage ops (Stage.curveSet cp) = true
                      · rw [if_pos hid]
                        simp only [pendingList, List.length_cons,
                          List.length_nil] at h ⊢
                        exact ⟨by omega, fun _ => by omega⟩
                      · rw [if_neg hid]
                        simp only [pendingList, List.length_cons,
                          List.length_nil] at h ⊢
                        exact ⟨by omega, fun hmod => by
                          have := h.2 hmod; omega⟩
                  | other =>
                      unfold merge_curvesets_go
                      dsimp only
                      have h := ih rest (some .other) hrest
                      by_cases hid :
                          is_identity_curve_stage ops (Stage.curveSet cp) = true
                      · rw [if_pos hid]
                        simp only [pendingList, List.length_cons,
                          List.length_nil] at h ⊢
                        exact ⟨by omega, fun _ => by omega⟩
                      · rw [if_neg hid]
                        simp only [pendingList, List.length_cons,
                          List.length_nil] at h ⊢
                        exact ⟨by omega, fun hmod => by
                          have := h.2 hmod; omega⟩
              | matrix mp op =>
                  unfold merge_curvesets_go
                  dsimp only
                  have h := ih rest (some e) hrest
                  by_cases hid :
                      is_identity_curve_stage ops (Stage.matrix mp op) = true
                  · rw [if_pos hid]
                    simp only [pendingList, List.length_cons,
                      List.length_nil] at h ⊢
                    exact ⟨by omega, fun _ => by omega⟩
                  · rw [if_neg hid]
                    simp only [pendingList, List.length_cons,
                      List.length_nil] at h ⊢
                    exact ⟨by omega, fun hmod => by have := h.2 hmod; omega⟩
              | other =>
                  unfold merge_curvesets_go
                  dsimp only
                  have h := ih rest (some e) hrest
                  by_cases hid : is_identity_curve_stage ops
                      (Stage.other : Stage C) = true
                  · rw [if_pos hid]
                    simp only [pendingList, List.length_cons,
                      List.length_nil] at h ⊢
                    exact ⟨by omega, fun _ => by omega⟩
                  · rw [if_neg hid]
                    simp only [pendingList, List.length_cons,
                      List.length_nil] at h ⊢
                    exact ⟨by omega, fun hmod => by have := h.2 hmod; omega⟩

theorem merge_matrices_not_modified {C : Type} {l q : List (Stage C)}
    (h : merge_matrices l = (q, false)) : q = l := by
  have := merge_matrices_go_not_modified l none q h
  simpa [pendingList] using this

theorem merge_curvesets_not_modified {C : Type} (ops : CurveOps C)
    {l q : List (Stage C)} (h : merge_curvesets ops l = (q, false)) :
    q = l := by
  have := merge_curvesets_go_not_modified ops l none q h
  simpa [pendingList] using this

theorem merge_matrices_length {C : Type} (l : List (Stage C)) :
    (merge_matrices l).1.length ≤ l.length
    ∧ ((merge_matrices l).2 = true →
        (merge_matrices l).1.length < l.length) := by
  have := merge_matrices_go_length l none
  simpa [pendingList, merge_matrices] using this

theorem merge_curvesets_length {C : Type} (ops : CurveOps C)
    (l : List (Stage C)) :
    (merge_curvesets ops l).1.length ≤ l.length
    ∧ ((merge_curvesets ops l).2 = true →
        (merge_curvesets ops l).1.length < l.length) := by
  have := merge_curvesets_go_length ops l.length l none (le_refl _)
  simpa [pendingList, merge_curvesets] using this

theorem lcms_optimize_pipeline_go_fixed {C : Type} (ops : CurveOps C) :
    ∀ (fuel : ℕ) (l : List (Stage C)), l.length < fuel →
      merge_matrices (lcms_optimize_pipeline_go ops fuel l) =
        (lcms_optimize_pipeline_go ops fuel l, false)
      ∧ merge_curvesets ops (lcms_optimize_pipeline_go ops fuel l) =
        (lcms_optimize_pipeline_go ops fuel l, false) := by
  intro fuel
  induction fuel with
  | zero =>
      intro l hl
      exact absurd hl (Nat.not_lt_zero _)
  | succ m ih =>
      intro l hl
      rcases h1 : merge_matrices l with ⟨p1, m1⟩
      rcases h2 : merge_curvesets ops p1 with ⟨p2, m2⟩
      have hstep : lcms_optimize_pipeline_go ops (m + 1) l =
          if (m1 || m2) = true then lcms_optimize_pipeline_go ops m p2
          else p2 := by
        conv_lhs => rw [lcms_optimize_pipeline_go]
        rw [h1]
        dsimp only
        rw [h2]
      rw [hstep]
      cases m1 with
      | true =>
          rw [if_pos (by simp)]
          have hlen1 : p1.length < l.length := by
            have hh := (merge_matrices_length l).2
            rw [h1] at hh
            exact hh rfl
          have hlen2 : p2.length ≤ p1.length := by
            have hh := (merge_curvesets_length ops p1).1
            rw [h2] at hh
            exact hh
          exact ih p2 (by omega)
      | false =>
          have hp1 : p1 = l := merge_matrices_not_modified h1
          cases m2 with
          | true =>
              rw [if_pos (by simp)]
              have hlen2 : p2.length < p1.length := by
                have hh := (merge_curvesets_length ops p1).2
                rw [h2] at hh
                exact hh rfl
              rw [hp1] at hlen2
              exact ih p2 (by omega)
          | false =>
              have hp2 : p2 = p1 := merge_curvesets_not_modified ops h2
              rw [if_neg (by simp)]
              subst hp2
              subst hp1
              exact ⟨h1, h2⟩

/-- C6: the pipeline optimizer is idempotent — on the result of
`lcms_optimize_pipeline`, both the merge-matrices pass and the
merge-curvesets pass report no change (and leave the pipeline untouched),
so a second run of `lcms_optimize_pipeline` exits after its first
iteration having modified nothing.  This holds for every implementation of
the curve-set operations. -/
theorem lcms_optimize_pipeline_idempotent {C : Type} (ops : CurveOps C)
    (l : List (Stage C)) :
    merge_matrices (lcms_optimize_pipeline ops l) =
      (lcms_optimize_pipeline ops l, false)
    ∧ merge_curvesets ops (lcms_optimize_pipeline ops l) =
      (lcms_optimize_pipeline ops l, false)
    ∧ lcms_optimize_pipeline ops (lcms_optimize_pipeline ops l) =
      lcms_optimize_pipeline ops l := by
  have h : merge_matrices (lcms_optimize_pipeline ops l) =
      (lcms_optimize_pipeline ops l, false)
      ∧ merge_curvesets ops (lcms_optimize_pipeline ops l) =
      (lcms_optimize_pipeline ops l, false) :=
    lcms_optimize_pipeline_go_fixed ops (l.length + 1) l (Nat.lt_succ_self _)
  refine ⟨h.1, h.2, ?_⟩
  generalize hr : lcms_optimize_pipeline ops l = r at h ⊢
  conv_lhs => rw [lcms_optimize_pipeline]
  conv_lhs => rw [lcms_optimize_pipeline_go]
  rw [h.1]
  dsimp only
  rw [h.2]
  dsimp only
  simp

theorem translate_pipeline_post_mapping {C : Type} (ops : CurveOps C)
    (pre : WestonCurve) (map : WestonMapping) (l : List (Stage C))
    (st : XformStages) (h : translate_pipeline_post ops pre map l = some st) :
    st.mapping = map := by
  cases l with
  | nil =>
      unfold translate_pipeline_post at h
      injection h with h1
      rw [← h1]
  | cons s rest =>
      cases s with
      | curveSet c =>
          unfold translate_pipeline_post at h
          dsimp only at h
          rcases htc : translate_curve_element ops c with _ | post
          · rw [htc] at h
            exact Option.noConfusion h
          · rw [htc] at h
            dsimp only at h
            by_cases hre : rest.isEmpty = true
            · rw [if_pos hre] at h
              injection h with h1
              rw [← h1]
            · rw [if_neg hre] at h
              exact Option.noConfusion h
      | matrix m off =>
          unfold translate_pipeline_post at h
          exact Option.noConfusion h
      | other =>
          unfold translate_pipeline_post at h
          exact Option.noConfusion h

theorem translate_matrix_element_shape {C : Type} (s : Stage C)
    (map : WestonMapping) (h : translate_matrix_element s = some map) :
    ∃ m, map = .matrix m := by
  cases s with
  | matrix m off =>
      unfold translate_matrix_element at h
      dsimp only at h
      by_cases hz : is_matrix_stage_with_zero_offset
          (Stage.matrix m off : Stage C) = true
      · rw [if_pos hz] at h
        injection h with h1
        exact ⟨m, h1.symm⟩
      · rw [if_neg hz] at h
        exact Option.noConfusion h
  | curveSet c =>
      unfold translate_matrix_element at h
      exact Option.noConfusion h
  | other =>
      unfold translate_matrix_element at h
      exact Option.noConfusion h

theorem translate_pipeline_map_no_lut3d {C : Type} (ops : CurveOps C)
    (pre : WestonCurve) (l : List (Stage C)) (st : XformStages)
    (h : translate_pipeline_map ops pre l = some st) :
    st.mapping ≠ .lut3d := by
  cases l with
  | nil =>
      unfold translate_pipeline_map at h
      injection h with h1
      rw [← h1]
      simp
  | cons s rest =>
      cases s with
      | matrix m off =>
          unfold translate_pipeline_map at h
          dsimp only at h
          rcases htm : translate_matrix_element (Stage.matrix m off : Stage C)
            with _ | map
          · rw [htm] at h
            exact Option.noConfusion h
          · rw [htm] at h
            dsimp only at h
            have hmm := translate_pipeline_post_mapping ops pre map rest st h
            obtain ⟨mm, hshape⟩ := translate_matrix_element_shape _ map htm
            rw [hmm, hshape]
            simp
      | curveSet c =>
          unfold translate_pipeline_map at h
          dsimp only at h
          have hmm := translate_pipeline_post_mapping ops pre .identity _ st h
          rw [hmm]
          simp
      | other =>
          unfold translate_pipeline_map at h
          dsimp only at h
          have hmm := translate_pipeline_post_mapping ops pre .identity _ st h
          rw [hmm]
          simp

theorem translate_pipeline_no_lut3d {C : Type} (ops : CurveOps C)
    (l : List (Stage C)) (st : XformStages)
    (h : translate_pipeline ops l = some st) : st.mapping ≠ .lut3d := by
  cases l with
  | nil =>
      unfold translate_pipeline at h
      injection h with h1
      rw [← h1]
      simp
  | cons s rest =>
      cases s with
      | curveSet c =>
          unfold translate_pipeline at h
          dsimp only at h
          rcases htc : translate_curve_element ops c with _ | pre
          · rw [htc] at h
            exact Option.noConfusion h
          · rw [htc] at h
            dsimp only at h
            exact translate_pipeline_map_no_lut3d ops pre rest st h
      | matrix m off =>
          unfold translate_pipeline at h
          dsimp only at h
          exact translate_pipeline_map_no_lut3d ops .identity _ st h
      | other =>
          unfold translate_pipeline at h
          dsimp only at h
          exact translate_pipeline_map_no_lut3d ops .identity _ st h

theorem optimize_float_pipeline_optimized_no_lut3d {C : Type}
    (ops : CurveOps C) (l : List (Stage C))
    (h : (optimize_float_pipeline ops l).status = .optimized) :
    (optimize_float_pipeline ops l).stages.mapping ≠ .lut3d := by
  have hopt : optimize_float_pipeline ops l =
      match translate_pipeline ops (lcms_optimize_pipeline ops l) with
      | some st => ⟨.optimized, st, true⟩
      | none => ⟨.threeDLut, ⟨.identity, .lut3d, .identity⟩, false⟩ := by
    unfold optimize_float_pipeline
    rfl
  rcases ht : translate_pipeline ops (lcms_optimize_pipeline ops l)
    with _ | st
  · rw [hopt, ht] at h
    simp at h
  · rw [hopt, ht]
    exact translate_pipeline_no_lut3d ops _ st ht

/-- C1: a successfully realized BLEND_TO_OUTPUT transform never has a
3D-LUT mapping stage (its status is never 3DLUT, and its mapping comes
from the pipeline translation which only produces identity or matrix
mappings); and reaching the 3D-LUT fallback for this category makes
`xform_realize_chain` hit the fatal `weston_assert_uint32_neq` — a fatal
internal-consistency assertion, not the recoverable failure outcome. -/
theorem blend_to_output_never_3dlut {C : Type} (ops : CurveOps C)
    (key : SearchKey) (fp : Option (List (Stage C))) (created : Bool) :
    (∀ status stages,
        xform_realize_chain ops key fp created = .ok status stages →
        key.category = .blendToOutput →
        status ≠ .threeDLut ∧ stages.mapping ≠ .lut3d)
    ∧ (∀ l, key.category = .blendToOutput →
        key.output_profile.ptype ≠ .params →
        (∀ p, key.input_profile = some p → p.ptype ≠ .params) →
        key.render_intent = none →
        fp = some l →
        (optimize_float_pipeline ops l).status = .threeDLut →
        created = true →
        xform_realize_chain ops key fp created = .fatal) := by
  constructor
  · intro status stages h hcat
    unfold xform_realize_chain at h
    by_cases hparam : (key.output_profile.ptype == CmProfileType.params ||
        (match key.input_profile with
         | some p => p.ptype == CmProfileType.params
         | none => false)) = true
    · rw [if_pos hparam] at h
      exact RealizeResult.noConfusion h
    · rw [if_neg hparam] at h
      dsimp only at h
      rw [hcat] at h
      rcases hint : key.render_intent with _ | ri
      · rw [hint] at h
        dsimp only at h
        rw [if_neg (by simp)] at h
        cases created with
        | false =>
            rw [if_pos rfl] at h
            exact RealizeResult.noConfusion h
        | true =>
            rw [if_neg (by simp)] at h
            rcases hfp : fp with _ | l
            · rw [hfp] at h
              dsimp only at h
              exact RealizeResult.noConfusion h
            · rw [hfp] at h
              dsimp only at h
              rcases hst : (optimize_float_pipeline ops l).status
                with _ | _ | _
              · rw [hst] at h
                exact RealizeResult.noConfusion h
              · rw [hst] at h
                dsimp only at h
                injection h with h1 h2
                constructor
                · rw [← h1]
                  simp
                · rw [← h2]
                  exact optimize_float_pipeline_optimized_no_lut3d
                    ops l hst
              · rw [hst] at h
                dsimp only at h
                rw [if_pos rfl] at h
                exact RealizeResult.noConfusion h
      · rw [hint] at h
        dsimp only at h
        rw [if_pos rfl] at h
        exact RealizeResult.noConfusion h
  · intro l hcat hout hin hint hfp hst hcreated
    subst hfp
    subst hcreated
    unfold xform_realize_chain
    have h1 : (key.output_profile.ptype == CmProfileType.params) = false := by
      simp only [beq_eq_false_iff_ne, ne_eq]
      exact hout
    have h2 : (match key.input_profile with
        | some p => p.ptype == CmProfileType.params
        | none => false) = false := by
      rcases hip : key.input_profile with _ | p
      · rfl
      · dsimp only
        simp only [beq_eq_false_iff_ne, ne_eq]
        exact hin p hip
    rw [if_neg (by rw [h1, h2]; simp)]
    rw [hcat, hint]
    rw [if_neg (by simp)]
    rw [if_neg (by simp)]
    dsimp only
    rw [hst]
    dsimp only
    rw [if_pos rfl]

/-- C1 witness: with trivial curve operations and the concrete
BLEND_TO_OUTPUT key, realizing an empty factory pipeline succeeds with an
OPTIMIZED status and a non-3D-LUT mapping, while a factory pipeline whose
translation fails (a lone unsupported stage) makes the realization hit the
fatal assertion. -/
theorem blend_to_output_never_3dlut_witness :
    (XformStatus.optimized ≠ XformStatus.threeDLut ∧
      (⟨.identity, .identity, .identity⟩ : XformStages).mapping ≠
        WestonMapping.lut3d)
    ∧ xform_realize_chain trivialCurveOps sampleB2OKey
        (some [Stage.other]) true = .fatal :=
  ⟨(blend_to_output_never_3dlut trivialCurveOps sampleB2OKey
      (some []) true).1 .optimized ⟨.identity, .identity, .identity⟩ rfl rfl,
   (blend_to_output_never_3dlut trivialCurveOps sampleB2OKey
      (some [Stage.other]) true).2 [Stage.other] rfl (by decide)
      (fun p hp => Option.noConfusion hp) rfl rfl rfl rfl⟩

/-- C3: for a builder whose target-luminance group has been set, profile
creation never returns at all when the transfer function was never set
(the NULL `tf_info` dereference crashes); when it was set, creation
succeeds only if every set maxCLL and maxFALL lies in
[min_luminance, max_luminance], a set maxCLL or maxFALL outside that
interval makes creation fail with an inconsistent-luminances validation
error among the collected errors, and the concrete scenario
(min 100, max 500, maxCLL 50 on an otherwise valid PQ builder) fails with
the inconsistent-luminances error code. -/
theorem create_color_profile_maxcll_consistency (b : ParamBuilder)
    (hlum : b.luminance_set = true) :
    (b.tf_set = false →
      weston_color_profile_param_builder_create_color_profile b = none)
    ∧ (∀ out,
        weston_color_profile_param_builder_create_color_profile b =
          some (.ok out) →
        (b.maxcll_set = true →
          b.min_luminance ≤ b.maxCLL ∧ b.maxCLL ≤ b.max_luminance) ∧
        (b.maxfall_set = true →
          b.min_luminance ≤ b.maxFALL ∧ b.maxFALL ≤ b.max_luminance))
    ∧ (b.tf_set = true → b.maxcll_set = true →
        b.maxCLL < b.min_luminance ∨ b.max_luminance < b.maxCLL →
        ∃ code errs,
          weston_color_profile_param_builder_create_color_profile b =
            some (.error (code, errs)) ∧
          BuilderError.inconsistentLuminances ∈ errs)
    ∧ (b.tf_set = true → b.maxfall_set = true →
        b.maxFALL < b.min_luminance ∨ b.max_luminance < b.maxFALL →
        ∃ code errs,
          weston_color_profile_param_builder_create_color_profile b =
            some (.error (code, errs)) ∧
          BuilderError.inconsistentLuminances ∈ errs)
    ∧ weston_color_profile_param_builder_create_color_profile
        sampleMaxCllBuilder =
        some (.error (.inconsistentLuminances,
          [.inconsistentLuminances])) := by
  have hmin : (builder_complete_params b).min_luminance =
      b.min_luminance := by
    simp [builder_complete_params, hlum]
  have hmax : (builder_complete_params b).max_luminance =
      b.max_luminance := by
    simp [builder_complete_params, hlum]
  have hmcll : b.maxcll_set = true →
      (builder_complete_params b).maxCLL = b.maxCLL := by
    intro h
    simp [builder_complete_params, h]
  have hmfall : b.maxfall_set = true →
      (builder_complete_params b).maxFALL = b.maxFALL := by
    intro h
    simp [builder_complete_params, h]
  have hfwd_cll : b.maxcll_set = true →
      validate_maxcll_errors (builder_complete_params b) = [] →
      b.min_luminance ≤ b.maxCLL ∧ b.maxCLL ≤ b.max_luminance := by
    intro hc hv
    unfold validate_maxcll_errors at hv
    rw [show (builder_complete_params b).luminance_set = b.luminance_set
      from rfl, hlum] at hv
    rw [if_neg (by simp)] at hv
    rw [hmin, hmax, hmcll hc] at hv
    by_cases h1 : b.min_luminance ≥ b.maxCLL
    · rw [if_pos h1] at hv
      simp at hv
    · by_cases h2 : b.max_luminance < b.maxCLL
      · rw [if_neg h1, if_pos h2] at hv
        simp at hv
      · exact ⟨le_of_lt (lt_of_not_ge h1), le_of_not_lt h2⟩
  have hfwd_fall : b.maxfall_set = true →
      validate_maxfall_errors (builder_complete_params b) = [] →
      b.min_luminance ≤ b.maxFALL ∧ b.maxFALL ≤ b.max_luminance := by
    intro hc hv
    unfold validate_maxfall_errors at hv
    rw [show (builder_complete_params b).luminance_set = b.luminance_set
      from rfl, hlum] at hv
    rw [if_neg (by simp)] at hv
    rw [hmin, hmax, hmfall hc] at hv
    by_cases h1 : b.min_luminance ≥ b.maxFALL
    · rw [if_pos h1] at hv
      simp at hv
    · by_cases h2 : b.max_luminance < b.maxFALL
      · rw [if_neg h1, if_pos h2] at hv
        simp at hv
      · exact ⟨le_of_lt (lt_of_not_ge h1), le_of_not_lt h2⟩
  have hbwd_cll : b.maxcll_set = true →
      b.maxCLL < b.min_luminance ∨ b.max_luminance < b.maxCLL →
      BuilderError.inconsistentLuminances ∈
        validate_maxcll_errors (builder_complete_params b) := by
    intro hc hrange
    unfold validate_maxcll_errors
    rw [show (builder_complete_params b).luminance_set = b.luminance_set
      from rfl, hlum]
    rw [if_neg (by simp)]
    rw [hmin, hmax, hmcll hc]
    rcases hrange with h | h
    · exact List.mem_append_left _ (by rw [if_pos (le_of_lt h)]; simp)
    · exact List.mem_append_right _ (by rw [if_pos h]; simp)
  have hbwd_fall : b.maxfall_set = true →
      b.maxFALL < b.min_luminance ∨ b.max_luminance < b.maxFALL →
      BuilderError.inconsistentLuminances ∈
        validate_maxfall_errors (builder_complete_params b) := by
    intro hc hrange
    unfold validate_maxfall_errors
    rw [show (builder_complete_params b).luminance_set = b.luminance_set
      from rfl, hlum]
    rw [if_neg (by simp)]
    rw [hmin, hmax, hmfall hc]
    rcases hrange with h | h
    · exact List.mem_append_left _ (by rw [if_pos (le_of_lt h)]; simp)
    · exact List.mem_append_right _ (by rw [if_pos h]; simp)
  refine ⟨?_, ?_, ?_, ?_, by with_unfolding_all decide⟩
  · intro htf
    have hset : builder_validate_params_set_errors
        (builder_complete_params b) = none := by
      unfold builder_validate_params_set_errors
      rw [show (builder_complete_params b).tf_set = b.tf_set from rfl, htf]
      rw [if_neg (by simp)]
    unfold weston_color_profile_param_builder_create_color_profile
    dsimp only
    rw [hset]
  · intro out h
    unfold weston_color_profile_param_builder_create_color_profile at h
    dsimp only at h
    rcases hset : builder_validate_params_set_errors
        (builder_complete_params b) with _ | setErrs
    · rw [hset] at h
      dsimp only at h
      exact Option.noConfusion h
    rw [hset] at h
    dsimp only at h
    have hE : b.errs ++ setErrs ++
        builder_validate_params_errors (builder_complete_params b) = [] := by
      by_contra hne
      obtain ⟨e, t, het⟩ := List.exists_cons_of_ne_nil hne
      rw [het] at h
      simp at h
    have hparams : builder_validate_params_errors
        (builder_complete_params b) = [] := by
      rcases List.append_eq_nil.mp hE with ⟨_, h2⟩
      exact h2
    unfold builder_validate_params_errors at hparams
    rcases List.append_eq_nil.mp hparams with ⟨hrest, hS⟩
    rcases List.append_eq_nil.mp hrest with ⟨hrest2, hR⟩
    constructor
    · intro hc
      apply hfwd_cll hc
      rw [show (builder_complete_params b).maxcll_set = b.maxcll_set
        from rfl, hc] at hR
      rw [if_pos rfl] at hR
      exact hR
    · intro hc
      apply hfwd_fall hc
      rw [show (builder_complete_params b).maxfall_set = b.maxfall_set
        from rfl, hc] at hS
      rw [if_pos rfl] at hS
      exact hS
  · intro htf hc hrange
    obtain ⟨setErrs, hset⟩ : ∃ l,
        builder_validate_params_set_errors (builder_complete_params b) =
          some l := by
      unfold builder_validate_params_set_errors
      rw [show (builder_complete_params b).tf_set = b.tf_set from rfl, htf]
      rw [if_pos rfl]
      exact ⟨_, rfl⟩
    have hmem : BuilderError.inconsistentLuminances ∈
        b.errs ++ setErrs ++
        builder_validate_params_errors (builder_complete_params b) := by
      apply List.mem_append_right
      unfold builder_validate_params_errors
      apply List.mem_append_left
      apply List.mem_append_right
      rw [show (builder_complete_params b).maxcll_set = b.maxcll_set
        from rfl, hc]
      rw [if_pos rfl]
      exact hbwd_cll hc hrange
    have hne : b.errs ++ setErrs ++
        builder_validate_params_errors (builder_complete_params b) ≠ [] := by
      intro h0
      rw [h0] at hmem
      exact absurd hmem (List.not_mem_nil _)
    obtain ⟨e, t, het⟩ := List.exists_cons_of_ne_nil hne
    refine ⟨e, _, ?_, hmem⟩
    unfold weston_color_profile_param_builder_create_color_profile
    dsimp only
    rw [hset]
    dsimp only
    rw [het]
  · intro htf hc hrange
    obtain ⟨setErrs, hset⟩ : ∃ l,
        builder_validate_params_set_errors (builder_complete_params b) =
          some l := by
      unfold builder_validate_params_set_errors
      rw [show (builder_complete_params b).tf_set = b.tf_set from rfl, htf]
      rw [if_pos rfl]
      exact ⟨_, rfl⟩
    have hmem : BuilderError.inconsistentLuminances ∈
        b.errs ++ setErrs ++
        builder_validate_params_errors (builder_complete_params b) := by
      apply List.mem_append_right
      unfold builder_validate_params_errors
      apply List.mem_append_right
      rw [show (builder_complete_params b).maxfall_set = b.maxfall_set
        from rfl, hc]
      rw [if_pos rfl]
      exact hbwd_fall hc hrange
    have hne : b.errs ++ setErrs ++
        builder_validate_params_errors (builder_complete_params b) ≠ [] := by
      intro h0
      rw [h0] at hmem
      exact absurd hmem (List.not_mem_nil _)
    obtain ⟨e, t, het⟩ := List.exists_cons_of_ne_nil hne
    refine ⟨e, _, ?_, hmem⟩
    unfold weston_color_profile_param_builder_create_color_profile
    dsimp only
    rw [hset]
    dsimp only
    rw [het]

/-- C3 witness: on the scenario builder (PQ, luminance [100, 500],
maxCLL 50), the theorem applied with maxCLL below the minimum luminance
produces the failing creation with the inconsistent-luminances error
collected. -/
theorem create_color_profile_maxcll_consistency_witness :
    ∃ code errs,
      weston_color_profile_param_builder_create_color_profile
        sampleMaxCllBuilder = some (.error (code, errs)) ∧
      BuilderError.inconsistentLuminances ∈ errs :=
  (create_color_profile_maxcll_consistency sampleMaxCllBuilder rfl).2.2.1
    rfl rfl (Or.inl (by norm_num [sampleMaxCllBuilder]))

/-- C3 counterexample to the unqualified claim: on a luminance-set builder
with maxCLL below the minimum luminance whose transfer function was never
set, profile creation does not fail with the inconsistent-luminances
validation error — it crashes on the NULL `tf_info` dereference in
`builder_validate_params_set` before reporting anything. -/
theorem create_color_profile_tf_unset_crash :
    sampleTfUnsetBuilder.luminance_set = true ∧
    sampleTfUnsetBuilder.maxcll_set = true ∧
    sampleTfUnsetBuilder.maxCLL < sampleTfUnsetBuilder.min_luminance ∧
    weston_color_profile_param_builder_create_color_profile
      sampleTfUnsetBuilder = none := by
  with_unfolding_all decide

theorem transform_matches_params_refl (k : CacheKey) :
    transform_matches_params k k = true := by
  unfold transform_matches_params
  simp

theorem transform_matches_params_eq {k1 k2 : CacheKey}
    (h : transform_matches_params k1 k2 = true) : k1 = k2 := by
  unfold transform_matches_params at h
  by_cases h1 : k1.category ≠ k2.category
  · rw [if_pos h1] at h
    exact Bool.noConfusion h
  · rw [if_neg h1] at h
    by_cases h2 : k1.render_intent ≠ k2.render_intent ∨
        k1.output_profile ≠ k2.output_profile ∨
        k1.input_profile ≠ k2.input_profile
    · rw [if_pos h2] at h
      exact Bool.noConfusion h
    · push_neg at h1 h2
      cases k1
      cases k2
      simp_all

theorem find_map_pred_invariant {α : Type} (f : α → α) (p : α → Bool)
    (hp : ∀ x, p (f x) = p x) (l : List α) :
    (l.map f).find? p = Option.map f (l.find? p) := by
  induction l with
  | nil => rfl
  | cons a t ih =>
      by_cases ha : p a = true
      · rw [List.map_cons, List.find?_cons_of_pos _ ((hp a).trans ha),
          List.find?_cons_of_pos _ ha]
        rfl
      · rw [List.map_cons,
          List.find?_cons_of_neg _ (by rw [hp a]; exact ha),
          List.find?_cons_of_neg _ ha, ih]

theorem bumpXf_id (i : ℕ) (y : XfObj) : (bumpXf i y).id = y.id := by
  unfold bumpXf
  split <;> rfl

theorem bumpXf_key (i : ℕ) (y : XfObj) : (bumpXf i y).key = y.key := by
  unfold bumpXf
  split <;> rfl

theorem bumpIcc_id (i : ℕ) (q : IccProfObj) : (bumpIcc i q).id = q.id := by
  unfold bumpIcc
  split <;> rfl

theorem bumpIcc_md5 (i : ℕ) (q : IccProfObj) : (bumpIcc i q).md5 = q.md5 := by
  unfold bumpIcc
  split <;> rfl

theorem bumpIcc_ptype (i : ℕ) (q : IccProfObj) :
    (bumpIcc i q).ptype = q.ptype := by
  unfold bumpIcc
  split <;> rfl

theorem bumpXf_refcount_self (y : XfObj) :
    (bumpXf y.id y).refcount = y.refcount + 1 := by
  unfold bumpXf
  rw [if_pos rfl]

theorem bumpIcc_refcount_self (q : IccProfObj) :
    (bumpIcc q.id q).refcount = q.refcount + 1 := by
  unfold bumpIcc
  rw [if_pos rfl]

/-- C7: the transform cache is keyed on exact structural equality of the
four search-key fields.  A `get` that returned a transform leaves the
registry such that a second `get` with the same key returns the very same
object (by identity) with its reference count incremented by one; and two
`get`s with keys differing in any field never return the same cached
entry. -/
theorem cmlcms_color_transform_get_cache_correct
    (canB canB2 : CacheKey → Bool) (s : CmState) (key key2 : CacheKey)
    (hinv : CmStateInv s) :
    (∀ x1 s1,
      cmlcms_color_transform_get_state canB s key = (some x1, s1) →
      ∃ s2, cmlcms_color_transform_get_state canB2 s1 key = (some x1, s2) ∧
        ∀ o1, s1.transforms.find? (fun o => o.id == x1) = some o1 →
          ∃ o2, s2.transforms.find? (fun o => o.id == x1) = some o2 ∧
            o2.refcount = o1.refcount + 1 ∧ o2.key = o1.key)
    ∧ (∀ x1 s1 x2 s2, key ≠ key2 →
        cmlcms_color_transform_get_state canB s key = (some x1, s1) →
        cmlcms_color_transform_get_state canB2 s1 key2 = (some x2, s2) →
        x1 ≠ x2) := by
  have hmatch_inv : ∀ (i : ℕ) (x : XfObj) (k : CacheKey),
      transform_matches_params (bumpXf i x).key k =
      transform_matches_params x.key k := by
    intro i x k
    rw [bumpXf_key]
  have hid_inv : ∀ (i : ℕ) (x : XfObj),
      ((bumpXf i x).id == i) = (x.id == i) := by
    intro i x
    rw [bumpXf_id]
  -- shape of a successful first get: the state holds the returned object
  have hshape : ∀ x1 s1,
      cmlcms_color_transform_get_state canB s key = (some x1, s1) →
      (∃ x, s.transforms.find?
          (fun x => transform_matches_params x.key key) = some x ∧
        x1 = x.id ∧
        s1 = { s with transforms := s.transforms.map (bumpXf x.id) })
      ∨ (s.transforms.find?
          (fun x => transform_matches_params x.key key) = none ∧
        canB key = true ∧ x1 = s.nextXformId ∧
        s1 = { transforms := ⟨s.nextXformId, key, 1⟩ :: s.transforms
               profiles := (ref_cprof_state
                 (ref_cprof_state s.profiles key.input_profile)
                 (some key.output_profile))
               nextXformId := s.nextXformId + 1 }) := by
    intro x1 s1 h
    unfold cmlcms_color_transform_get_state at h
    rcases hfind : s.transforms.find?
        (fun x => transform_matches_params x.key key) with _ | x
    · rw [hfind] at h
      dsimp only at h
      unfold cmlcms_color_transform_create_state at h
      dsimp only at h
      rcases hb : canB key with _ | _
      · rw [hb] at h
        rw [if_neg (by simp)] at h
        have hfst := congrArg Prod.fst h
        simp at hfst
      · rw [hb] at h
        rw [if_pos rfl] at h
        right
        refine ⟨hfind, rfl, ?_, ?_⟩
        · have := congrArg Prod.fst h
          simpa using this.symm
        · have := congrArg Prod.snd h
          simpa using this.symm
    · rw [hfind] at h
      dsimp only at h
      left
      refine ⟨x, hfind, ?_, ?_⟩
      · have := congrArg Prod.fst h
        simpa using this.symm
      · have := congrArg Prod.snd h
        simpa using this.symm
  constructor
  · intro x1 s1 h
    rcases hshape x1 s1 h with ⟨x, hfind, hx1, hs1⟩ | ⟨hfind, hb, hx1, hs1⟩
    · -- cache hit: second get hits the bumped object
      have hfind2 : s1.transforms.find?
          (fun y => transform_matches_params y.key key) =
          some (bumpXf x.id x) := by
        rw [hs1]
        dsimp only
        rw [find_map_pred_invariant (bumpXf x.id)
          (fun y => transform_matches_params y.key key)
          (fun y => hmatch_inv x.id y key) s.transforms]
        rw [hfind]
        rfl
      refine ⟨{ s1 with transforms :=
          s1.transforms.map (bumpXf (bumpXf x.id x).id) }, ?_, ?_⟩
      · unfold cmlcms_color_transform_get_state
        rw [hfind2]
        dsimp only
        rw [bumpXf_id, hx1]
      · intro o1 ho1
        have hfid : (s1.transforms.map (bumpXf (bumpXf x.id x).id)).find?
            (fun o => o.id == x1) =
            Option.map (bumpXf (bumpXf x.id x).id)
              (s1.transforms.find? (fun o => o.id == x1)) :=
          find_map_pred_invariant _ _
            (fun y => by rw [bumpXf_id]) _
        refine ⟨bumpXf (bumpXf x.id x).id o1, ?_, ?_, ?_⟩
        · dsimp only
          rw [hfid, ho1]
          rfl
        · have ho1id : o1.id = x1 := by
            have := List.find?_some ho1
            simpa using this
          rw [bumpXf_id, ← hx1, ← ho1id]
          exact bumpXf_refcount_self o1
        · exact bumpXf_key _ o1
    · -- cache miss and created: second get hits the new head entry
      have hfind2 : s1.transforms.find?
          (fun y => transform_matches_params y.key key) =
          some ⟨s.nextXformId, key, 1⟩ := by
        rw [hs1]
        exact List.find?_cons_of_pos _ (transform_matches_params_refl key)
      refine ⟨{ s1 with transforms :=
          s1.transforms.map (bumpXf (⟨s.nextXformId, key, 1⟩ : XfObj).id) },
          ?_, ?_⟩
      · unfold cmlcms_color_transform_get_state
        rw [hfind2]
        dsimp only
        rw [hx1]
      · intro o1 ho1
        have hfid : (s1.transforms.map
            (bumpXf (⟨s.nextXformId, key, 1⟩ : XfObj).id)).find?
            (fun o => o.id == x1) =
            Option.map (bumpXf (⟨s.nextXformId, key, 1⟩ : XfObj).id)
              (s1.transforms.find? (fun o => o.id == x1)) :=
          find_map_pred_invariant _ _
            (fun y => by rw [bumpXf_id]) _
        refine ⟨bumpXf s.nextXformId o1, ?_, ?_, ?_⟩
        · dsimp only
          rw [hfid, ho1]
          rfl
        · have ho1id : o1.id = x1 := by
            have := List.find?_some ho1
            simpa using this
          have hsn : s.nextXformId = o1.id := by rw [ho1id, hx1]
          rw [hsn]
          exact bumpXf_refcount_self o1
        · exact bumpXf_key _ o1
  · intro x1 s1 x2 s2 hkeys h1 h2
    -- the object returned by the first get is in s1 with key `key`
    have hobj1 : ∃ o ∈ s1.transforms, o.id = x1 ∧ o.key = key := by
      rcases hshape x1 s1 h1 with ⟨x, hfind, hx1, hs1⟩ | ⟨_, _, hx1, hs1⟩
      · have hxkey : x.key = key := by
          have hpx := List.find?_some hfind
          have hpx2 : transform_matches_params x.key key = true := hpx
          exact transform_matches_params_eq hpx2
        refine ⟨bumpXf x.id x, ?_, ?_, ?_⟩
        · rw [hs1]
          exact List.mem_map_of_mem _ (List.mem_of_find?_eq_some hfind)
        · rw [bumpXf_id, hx1]
        · rw [bumpXf_key, hxkey]
      · refine ⟨⟨s.nextXformId, key, 1⟩, ?_, hx1.symm, rfl⟩
        rw [hs1]
        exact List.mem_cons_self _ _
    have hinv1 : CmStateInv s1 := by
      rcases hshape x1 s1 h1 with ⟨x, hfind, hx1, hs1⟩ | ⟨_, _, hx1, hs1⟩
      · constructor
        · rw [hs1]
          dsimp only
          rw [List.pairwise_map]
          refine hinv.1.imp ?_
          intro a b hab
          rw [bumpXf_id, bumpXf_id]
          exact hab
        · rw [hs1]
          dsimp only
          intro y hy
          rcases List.mem_map.mp hy with ⟨z, hz, hzy⟩
          rw [← hzy, bumpXf_id]
          exact hinv.2 z hz
      · constructor
        · rw [hs1]
          dsimp only
          refine List.pairwise_cons.mpr ⟨?_, hinv.1⟩
          intro a ha
          dsimp only
          intro hcon
          exact absurd (hcon ▸ hinv.2 a ha) (lt_irrefl _)
        · rw [hs1]
          dsimp only
          intro y hy
          rcases List.mem_cons.mp hy with hy | hy
          · rw [hy]
            exact Nat.lt_succ_self _
          · exact Nat.lt_succ_of_lt (hinv.2 y hy)
    obtain ⟨o1, ho1mem, ho1id, ho1key⟩ := hobj1
    rcases hshape₂ : s1.transforms.find?
        (fun x => transform_matches_params x.key key2) with _ | y
    · -- second get missed the cache, so it created a fresh id
      unfold cmlcms_color_transform_get_state at h2
      rw [hshape₂] at h2
      dsimp only at h2
      unfold cmlcms_color_transform_create_state at h2
      dsimp only at h2
      rcases hb : canB2 key2 with _ | _
      · rw [hb] at h2
        rw [if_neg (by simp)] at h2
        have hfst := congrArg Prod.fst h2
        simp at hfst
      · rw [hb] at h2
        rw [if_pos rfl] at h2
        have hx2 : x2 = s1.nextXformId := by
          have := congrArg Prod.fst h2
          simpa using this.symm
        have := hinv1.2 o1 ho1mem
        intro hcon
        rw [ho1id] at this
        rw [hcon, hx2] at this
        exact absurd this (lt_irrefl _)
    · -- second get hit an object whose key is key2 ≠ key
      unfold cmlcms_color_transform_get_state at h2
      rw [hshape₂] at h2
      dsimp only at h2
      have hx2 : x2 = y.id := by
        have := congrArg Prod.fst h2
        simpa using this.symm
      have hykey : y.key = key2 := by
        have hpy := List.find?_some hshape₂
        have hpy2 : transform_matches_params y.key key2 = true := hpy
        exact transform_matches_params_eq hpy2
      have hymem : y ∈ s1.transforms := List.mem_of_find?_eq_some hshape₂
      intro hcon
      have hsame : o1 = y := by
        by_contra hne
        have hforall := List.Pairwise.forall
          (fun {a b : XfObj} (hab : a.id ≠ b.id) => hab.symm) hinv1.1
        exact hforall ho1mem hymem hne (by rw [ho1id, hcon, hx2])
      rw [hsame, hykey] at ho1key
      exact hkeys ho1key.symm

theorem cmlcms_color_transform_get_cache_correct_witness :
    ((∃ s2, cmlcms_color_transform_get_state (fun _ => true) sampleCmState1
        sampleCacheKey = (some 0, s2) ∧
      ∀ o1, sampleCmState1.transforms.find? (fun o => o.id == 0) = some o1 →
        ∃ o2, s2.transforms.find? (fun o => o.id == 0) = some o2 ∧
          o2.refcount = o1.refcount + 1 ∧ o2.key = o1.key) ∧
     (0 : ℕ) ≠ 1) := by
  have hthm := cmlcms_color_transform_get_cache_correct (fun _ => true)
    (fun _ => true) sampleCmState sampleCacheKey sampleCacheKey2
    ⟨List.Pairwise.nil, fun x hx => absurd hx (List.not_mem_nil x)⟩
  refine ⟨hthm.1 0 sampleCmState1 ?_, hthm.2 0 sampleCmState1 1
    ⟨[⟨1, sampleCacheKey2, 1⟩, ⟨0, sampleCacheKey, 1⟩], [], 2⟩
    (by decide) ?_ ?_⟩
  · decide
  · decide
  · decide

/-- C8: profile ingestion from ICC bytes is de-duplicating and idempotent.
If a first `cmlcms_get_color_profile_from_icc` on byte buffer `data`
returned the profile `x1`, then a second call with the same bytes returns
the very same profile object (found by MD5 content-hash equality), the
store holds no additional profile object (same list length, and the id a
new profile would get is untouched), and the returned object's reference
count is incremented by one while its content hash is unchanged. -/
theorem cmlcms_get_color_profile_from_icc_dedup
    (openProf : List ℕ → Option IccHeader) (md5f : List ℕ → Option ℕ)
    (s : StoreState) (data : List ℕ) :
    ∀ x1 s1,
      cmlcms_get_color_profile_from_icc_state openProf md5f s data =
        (some x1, s1) →
      ∃ s2,
        cmlcms_get_color_profile_from_icc_state openProf md5f s1 data =
          (some x1, s2) ∧
        s2.profiles.length = s1.profiles.length ∧
        s2.nextProfileId = s1.nextProfileId ∧
        ∀ o1, s1.profiles.find? (fun o => o.id == x1) = some o1 →
          ∃ o2, s2.profiles.find? (fun o => o.id == x1) = some o2 ∧
            o2.refcount = o1.refcount + 1 ∧ o2.md5 = o1.md5 := by
  intro x1 s1 h
  unfold cmlcms_get_color_profile_from_icc_state at h
  by_cases hlen1 : data.length < 1
  · rw [if_pos hlen1] at h
    exact absurd (congrArg Prod.fst h) (by simp)
  rw [if_neg hlen1] at h
  by_cases hlen2 : 2 ^ 32 - 1 ≤ data.length
  · rw [if_pos hlen2] at h
    exact absurd (congrArg Prod.fst h) (by simp)
  rw [if_neg hlen2] at h
  rcases hop : openProf data with _ | hdr
  · rw [hop] at h
    dsimp only at h
    exact absurd (congrArg Prod.fst h) (by simp)
  rw [hop] at h
  dsimp only at h
  rcases hval : validate_icc_profile hdr with e | u
  · rw [hval] at h
    dsimp only at h
    exact absurd (congrArg Prod.fst h) (by simp)
  rw [hval] at h
  dsimp only at h
  rcases hm : md5f data with _ | m
  · rw [hm] at h
    dsimp only at h
    exact absurd (congrArg Prod.fst h) (by simp)
  rw [hm] at h
  dsimp only at h
  rcases hfind : cmlcms_find_color_profile_by_md5 s m with _ | p
  · -- created: the first call put the new profile at the head of the list
    rw [hfind] at h
    dsimp only at h
    have hx1 : x1 = s.nextProfileId := by
      have := congrArg Prod.fst h
      simpa using this.symm
    have hs1 : s1 = { profiles := ⟨s.nextProfileId, m, .icc, 1⟩ :: s.profiles
                      nextProfileId := s.nextProfileId + 1 } := by
      have := congrArg Prod.snd h
      simpa using this.symm
    have hfind2 : cmlcms_find_color_profile_by_md5 s1 m =
        some ⟨s.nextProfileId, m, .icc, 1⟩ := by
      unfold cmlcms_find_color_profile_by_md5
      rw [hs1]
      exact List.find?_cons_of_pos _ (by simp)
    refine ⟨{ s1 with profiles :=
        (ref_icc_profile_list s.nextProfileId s1.profiles) }, ?_, ?_, rfl, ?_⟩
    · unfold cmlcms_get_color_profile_from_icc_state
      rw [if_neg hlen1, if_neg hlen2, hop]
      dsimp only
      rw [hval]
      dsimp only
      rw [hm]
      dsimp only
      rw [hfind2]
      dsimp only
      rw [hx1]
    · dsimp only
      unfold ref_icc_profile_list
      rw [List.length_map]
    · intro o1 ho1
      have hfid : (ref_icc_profile_list s.nextProfileId s1.profiles).find?
          (fun o => o.id == x1) =
          Option.map (bumpIcc s.nextProfileId)
            (s1.profiles.find? (fun o => o.id == x1)) := by
        unfold ref_icc_profile_list
        exact find_map_pred_invariant _ _ (fun q => by rw [bumpIcc_id]) _
      refine ⟨bumpIcc s.nextProfileId o1, ?_, ?_, ?_⟩
      · dsimp only
        rw [hfid, ho1]
        rfl
      · have ho1id : o1.id = x1 := by
          have := List.find?_some ho1
          simpa using this
        have hpo : s.nextProfileId = o1.id := by rw [ho1id, hx1]
        rw [hpo]
        exact bumpIcc_refcount_self o1
      · exact bumpIcc_md5 _ o1
  · -- found: both calls bump the same MD5-matched object
    rw [hfind] at h
    dsimp only at h
    have hx1 : x1 = p.id := by
      have := congrArg Prod.fst h
      simpa using this.symm
    have hs1 : s1 = { s with profiles :=
        (ref_icc_profile_list p.id s.profiles) } := by
      have := congrArg Prod.snd h
      simpa using this.symm
    have hfind2 : cmlcms_find_color_profile_by_md5 s1 m =
        some (bumpIcc p.id p) := by
      unfold cmlcms_find_color_profile_by_md5
      rw [hs1]
      dsimp only
      unfold ref_icc_profile_list
      have hpinv : ∀ q, ((bumpIcc p.id q).ptype == CmProfileType.icc &&
          (bumpIcc p.id q).md5 == m) =
          (q.ptype == CmProfileType.icc && q.md5 == m) := by
        intro q
        rw [bumpIcc_ptype, bumpIcc_md5]
      rw [find_map_pred_invariant (bumpIcc p.id)
        (fun q => q.ptype == CmProfileType.icc && q.md5 == m) hpinv
        s.profiles]
      have hfind' : s.profiles.find?
          (fun q => q.ptype == CmProfileType.icc && q.md5 == m) = some p :=
        hfind
      rw [hfind']
      rfl
    refine ⟨{ s1 with profiles :=
        (ref_icc_profile_list p.id s1.profiles) }, ?_, ?_, rfl, ?_⟩
    · unfold cmlcms_get_color_profile_from_icc_state
      rw [if_neg hlen1, if_neg hlen2, hop]
      dsimp only
      rw [hval]
      dsimp only
      rw [hm]
      dsimp only
      rw [hfind2]
      dsimp only
      rw [bumpIcc_id, hx1]
    · dsimp only
      unfold ref_icc_profile_list
      rw [List.length_map]
    · intro o1 ho1
      have hfid : (ref_icc_profile_list p.id s1.profiles).find?
          (fun o => o.id == x1) =
          Option.map (bumpIcc p.id)
            (s1.profiles.find? (fun o => o.id == x1)) := by
        unfold ref_icc_profile_list
        exact find_map_pred_invariant _ _ (fun q => by rw [bumpIcc_id]) _
      refine ⟨bumpIcc p.id o1, ?_, ?_, ?_⟩
      · dsimp only
        rw [hfid, ho1]
        rfl
      · have ho1id : o1.id = x1 := by
          have := List.find?_some ho1
          simpa using this
        have hpo : p.id = o1.id := by rw [ho1id, hx1]
        rw [hpo]
        exact bumpIcc_refcount_self o1
      · exact bumpIcc_md5 _ o1

theorem cmlcms_get_color_profile_from_icc_dedup_witness :
    ∃ s2,
      cmlcms_get_color_profile_from_icc_state
        (fun _ => some ⟨4 * 2 ^ 24, 3, .display⟩) (fun _ => some 7)
        ⟨[⟨0, 7, .icc, 1⟩], 1⟩ [1] = (some 0, s2) ∧
      s2.profiles.length =
        (⟨[⟨0, 7, .icc, 1⟩], 1⟩ : StoreState).profiles.length ∧
      s2.nextProfileId = (⟨[⟨0, 7, .icc, 1⟩], 1⟩ : StoreState).nextProfileId ∧
      ∀ o1, (⟨[⟨0, 7, .icc, 1⟩], 1⟩ : StoreState).profiles.find?
          (fun o => o.id == 0) = some o1 →
        ∃ o2, s2.profiles.find? (fun o => o.id == 0) = some o2 ∧
          o2.refcount = o1.refcount + 1 ∧ o2.md5 = o1.md5 :=
  cmlcms_get_color_profile_from_icc_dedup
    (fun _ => some ⟨4 * 2 ^ 24, 3, .display⟩) (fun _ => some 7)
    ⟨[], 0⟩ [1] 0 ⟨[⟨0, 7, .icc, 1⟩], 1⟩ (by decide)

theorem bumpProf_bumpProf_comm (a b : ℕ) (q : ProfObjC) :
    bumpProf a (bumpProf b q) = bumpProf b (bumpProf a q) := by
  have hba : ∀ (c : ℕ) (r : ProfObjC), r.id = c →
      bumpProf c r = { r with refcount := r.refcount + 1 } := by
    intro c r h
    unfold bumpProf
    rw [if_pos h]
  have hbn : ∀ (c : ℕ) (r : ProfObjC), ¬(r.id = c) → bumpProf c r = r := by
    intro c r h
    unfold bumpProf
    rw [if_neg h]
  by_cases ha : q.id = a <;> by_cases hb : q.id = b
  · rw [hba b q hb, hba a { q with refcount := q.refcount + 1 } ha,
      hba a q ha, hba b { q with refcount := q.refcount + 1 } hb]
  · rw [hbn b q hb, hba a q ha,
      hbn b { q with refcount := q.refcount + 1 } hb]
  · rw [hbn a q ha, hba b q hb,
      hbn a { q with refcount := q.refcount + 1 } ha]
  · rw [hbn b q hb, hbn a q ha, hbn b q hb]

theorem ref_ref_comm (a b : ℕ) (l : List ProfObjC) :
    ref_profile_list a (ref_profile_list b l) =
    ref_profile_list b (ref_profile_list a l) := by
  unfold ref_profile_list
  rw [List.map_map, List.map_map]
  congr 1
  funext q
  simp only [Function.comp_apply]
  exact bumpProf_bumpProf_comm a b q

theorem ref_profile_list_refcount (pid : ℕ) (l : List ProfObjC)
    (h : ∀ q ∈ l, 1 ≤ q.refcount) :
    ∀ q ∈ ref_profile_list pid l, 1 ≤ q.refcount := by
  intro q hq
  rcases List.mem_map.mp hq with ⟨r, hr, hrq⟩
  subst hrq
  unfold bumpProf
  split
  · dsimp only
    have := h r hr
    omega
  · exact h r hr

theorem unref_ref_profile_list (pid : ℕ) (l : List ProfObjC)
    (h : ∀ q ∈ l, 1 ≤ q.refcount) :
    unref_profile_list pid (ref_profile_list pid l) = l := by
  induction l with
  | nil => rfl
  | cons q t ih =>
      have hq := h q (List.mem_cons_self q t)
      have ih2 := ih (fun r hr => h r (List.mem_cons_of_mem q hr))
      rcases q with ⟨qid, qc⟩
      have hq' : 1 ≤ qc := hq
      by_cases hqp : qid = pid
      · subst hqp
        have hb : bumpProf qid ⟨qid, qc⟩ = ⟨qid, qc + 1⟩ := by
          unfold bumpProf
          rw [if_pos rfl]
        unfold ref_profile_list
        rw [List.map_cons, hb]
        unfold unref_profile_list
        rw [if_pos rfl,
          if_neg (show ¬((⟨qid, qc + 1⟩ : ProfObjC).refcount - 1 = 0) by
            dsimp only
            omega)]
        rw [show ((⟨qid, qc + 1⟩ : ProfObjC).refcount - 1 : ℕ) = qc from rfl]
        exact congrArg (fun z => (⟨qid, qc⟩ : ProfObjC) :: z) ih2
      · have hb : bumpProf pid ⟨qid, qc⟩ = ⟨qid, qc⟩ := by
          unfold bumpProf
          rw [if_neg hqp]
        unfold ref_profile_list
        rw [List.map_cons, hb]
        unfold unref_profile_list
        rw [if_neg hqp]
        exact congrArg (fun z => (⟨qid, qc⟩ : ProfObjC) :: z) ih2

theorem create_refs_cancel (i : Option ℕ) (o : ℕ) (l : List ProfObjC)
    (h : ∀ q ∈ l, 1 ≤ q.refcount) :
    unref_cprof_state
      (unref_cprof_state (ref_cprof_state (ref_cprof_state l i) (some o)) i)
      (some o) = l := by
  cases i with
  | none => exact unref_ref_profile_list o l h
  | some pid =>
      show unref_profile_list o (unref_profile_list pid
        (ref_profile_list o (ref_profile_list pid l))) = l
      rw [ref_ref_comm o pid l,
        unref_ref_profile_list pid _ (ref_profile_list_refcount o l h)]
      exact unref_ref_profile_list o l h

/-- C10: transform construction is atomic with respect to the cache.  If
building fails (the `canBuild` oracle covers both the output-profile
extract computation and `xform_realize_chain`), the create operation
returns failure with the color-manager state exactly as before the call:
the partial transform was never inserted and the two profile references it
took are released again (given every live profile has a positive reference
count).  Consequently a `get` with that key (absent a cached entry)
returns failure without caching it, and a later `get` with the same key
re-attempts construction: if building now succeeds, it creates and
inserts the transform. -/
theorem transform_create_failure_atomic
    (canB canB2 : CacheKey → Bool) (s : CmState) (key : CacheKey)
    (hfail : canB key = false)
    (hrc : ∀ q ∈ s.profiles, 1 ≤ q.refcount) :
    cmlcms_color_transform_create_state canB s key = (none, s) ∧
    (s.transforms.find? (fun x => transform_matches_params x.key key) =
        none →
      cmlcms_color_transform_get_state canB s key = (none, s) ∧
      (canB2 key = true →
        cmlcms_color_transform_get_state canB2 s key =
          (some s.nextXformId,
           { transforms := ⟨s.nextXformId, key, 1⟩ :: s.transforms
             profiles := (ref_cprof_state
               (ref_cprof_state s.profiles key.input_profile)
               (some key.output_profile))
             nextXformId := s.nextXformId + 1 }))) := by
  have hcreate : cmlcms_color_transform_create_state canB s key =
      (none, s) := by
    unfold cmlcms_color_transform_create_state
    dsimp only
    rw [hfail, if_neg (by simp),
      create_refs_cancel key.input_profile key.output_profile s.profiles hrc]
  refine ⟨hcreate, fun hfind => ⟨?_, fun hb2 => ?_⟩⟩
  · unfold cmlcms_color_transform_get_state
    rw [hfind]
    dsimp only
    exact hcreate
  · unfold cmlcms_color_transform_get_state
    rw [hfind]
    dsimp only
    unfold cmlcms_color_transform_create_state
    dsimp only
    rw [hb2, if_pos rfl]

theorem transform_create_failure_atomic_witness :
    cmlcms_color_transform_create_state (fun _ => false)
      ⟨[], [⟨0, 2⟩], 5⟩ sampleCacheKey2 = (none, ⟨[], [⟨0, 2⟩], 5⟩) ∧
    cmlcms_color_transform_get_state (fun _ => false)
      ⟨[], [⟨0, 2⟩], 5⟩ sampleCacheKey2 = (none, ⟨[], [⟨0, 2⟩], 5⟩) ∧
    cmlcms_color_transform_get_state (fun _ => true)
      ⟨[], [⟨0, 2⟩], 5⟩ sampleCacheKey2 =
      (some 5, ⟨[⟨5, sampleCacheKey2, 1⟩], [⟨0, 3⟩], 6⟩) := by
  have h := transform_create_failure_atomic (fun _ => false) (fun _ => true)
    ⟨[], [⟨0, 2⟩], 5⟩ sampleCacheKey2 rfl (by decide)
  have h2 := h.2 rfl
  exact ⟨h.1, h2.1, h2.2 rfl⟩

end Weston
